import Mathlib

/-
Verification of the cpufreq "dynamic" governor
(drivers/cpufreq/cpufreq_dynamic.c).

The decision engine is embedded shallowly: machine unsigned ints are
naturals reduced mod 2^32 exactly where the C arithmetic is 32-bit,
u64 time counters are naturals (monotone counters; the (unsigned int)
casts of u64 differences are modelled as `% 2^32` of the Nat
difference), and the external frequency-table lookup
(cpufreq_frequency_table_target of the era's kernel) is modelled
faithfully: entries outside [policy->min, policy->max] are skipped,
RELATION_L picks the lowest entry at or above the target (falling back
to the highest entry below it), RELATION_H the highest at or below
(falling back to the lowest above).  The lookup returns an Option; the
C code leaves idx uninitialized when the lookup fails (no in-range
table entry), so theorems about paths using it assume a table with at
least one entry inside the policy range.
-/

namespace CpufreqDynamic


/-- 2^32, the modulus of the C `unsigned int` arithmetic. -/
def U32 : Nat := 4294967296


/-- Reduce a natural mod 2^32 (a C `unsigned int` value). -/
def u32 (n : Nat) : Nat := n % U32


/-- INT_MAX, initial accumulator of the hotplug window minima. -/
def INT_MAX : Nat := 2147483647


/-- MAX_HOTPLUG_RATE: capacity of the hotplug history ring. -/
def MAX_HOTPLUG_RATE : Nat := 40


/-- CPUFREQ_RELATION_L / CPUFREQ_RELATION_H. -/
inductive Relation
  | L
  | H
deriving DecidableEq, Repr


/-- Minimum of a list of naturals, `none` on the empty list. -/
def minN : List Nat → Option Nat
  | [] => none
  | x :: xs =>
    match minN xs with
    | none => some x
    | some m => some (if x ≤ m then x else m)


/-- Maximum of a list of naturals, `none` on the empty list. -/
def maxN : List Nat → Option Nat
  | [] => none
  | x :: xs =>
    match maxN xs with
    | none => some x
    | some m => some (if m ≤ x then x else m)


/-- Table entries inside the policy limits: the entries the era's
cpufreq_frequency_table_target does not skip. -/
def validEntries (pmin pmax : Nat) (table : List Nat) : List Nat :=
  table.filter (fun f => decide (pmin ≤ f) && decide (f ≤ pmax))


/-- cpufreq_frequency_table_target of the 3.0-era kernel, on a table of
valid frequencies: entries outside [pmin, pmax] are skipped; RELATION_L
returns the lowest remaining entry at or above the target, else the
highest below it; RELATION_H the highest at or below, else the lowest
above.  `none` when the table has no entry inside the limits
(the C function returns -EINVAL and leaves the index unset). -/
def freqTableTarget (pmin pmax : Nat) (table : List Nat) (target : Nat)
    (rel : Relation) : Option Nat :=
  let valid := validEntries pmin pmax table
  match rel with
  | .H =>
    match maxN (valid.filter (fun f => decide (f ≤ target))) with
    | some o => some o
    | none => minN (valid.filter (fun f => decide (target < f)))
  | .L =>
    match minN (valid.filter (fun f => decide (target ≤ f))) with
    | some o => some o
    | none => maxN (valid.filter (fun f => decide (f < target)))


/-- The governor tunables (struct dbs_tuners), restricted to the fields the
decision engine reads.  Fields whose C names start with an underscore are
the internal precomputed limits of the same names. -/
structure Tuners where
  input_boost_freq : Nat
  input_boost_us : Nat
  power_optimal_freq : Nat
  high_freq_sampling_up_factor : Nat
  up_threshold : Nat
  down_differential : Nat
  ignore_nice : Nat
  io_is_busy : Nat
  sampling_rate : Nat
  sampling_down_factor : Nat
  sampling_down_factor_relax_khz : Nat
  max_non_oc_freq : Nat
  oc_freq_boost_ms : Nat
  standby_delay_factor : Nat
  standby_threshold_freq : Nat
  standby_sampling_rate : Nat
  standby_sampling_up_factor : Nat
  suspend_sampling_rate : Nat
  suspend_sampling_up_factor : Nat
  suspend_max_freq : Nat
  cpu_up_rate : Nat
  cpu_down_rate : Nat
  max_cpu_lock : Nat
  min_cpu_lock : Nat
  boost_mincpus : Nat
  _suspend_max_freq_soft : Nat
  _suspend_max_freq_hard : Nat
  _standby_max_freq_soft : Nat
  _oc_limit : Nat
  _standby_threshold_freq : Nat
deriving Repr, DecidableEq


/-- The cpufreq policy fields the governor reads. -/
structure Policy where
  min : Nat
  max : Nat
  cur : Nat
deriving Repr, DecidableEq


/-- One per-cpu snapshot of the cumulative time counters
(prev_cpu_idle / prev_cpu_wall / prev_cpu_nice / prev_cpu_io), and likewise
the shape of one tick's current counter readings.  `iow` is the C
prev_cpu_io iowait counter. -/
structure CpuTimes where
  idle : Nat
  wall : Nat
  nice : Nat
  iow : Nat
deriving Repr, DecidableEq


/-- Per-core governor state (struct cpu_dbs_info_s counters). -/
structure CoreState where
  requested_freq : Nat
  freq_lo : Nat
  down_skip : Nat
  sampling_up_counter : Nat
  standby_counter : Nat
  down_threshold : Nat
  oc_boost_cycles : Nat
deriving Repr, DecidableEq


/-- The run-queue tracker accumulator (struct runqueue_data data fields).
The C fields are int64_t holding non-negative kernel time values; they are
modelled as naturals. -/
structure RqData where
  nr_run_avg : Nat
  last_time : Nat
  total_time : Nat
deriving Repr, DecidableEq


/-- Global + per-core mutable state touched by one decision tick:
the suspend/standby flags, the sampling delay, the hotplug history
(record i holds that sample's (policy->cur, rq_avg); the per-cpu load
array stored alongside is written but read back only by debug printing,
so it is not modelled), the run-queue accumulator, this core's counters,
and the per-cpu previous time snapshots of the cpus in policy->cpus. -/
structure Sys where
  suspend : Bool
  standby : Bool
  delay : Nat
  hist : Nat → Nat × Nat
  num_hist : Nat
  rq : RqData
  core : CoreState
  prevs : List CpuTimes


/-- Read-only inputs of one tick: tunables, policy, frequency table,
the external cputime-to-usecs conversion used for nice time
(jiffies_to_usecs composed with cputime64_to_jiffies64), the
current time and last input-event time in usecs, the online/possible cpu
counts, the _hotplug_freq/_hotplug_rq rows ((down, up) thresholds per
online-count-minus-1), and the current per-cpu time counter readings. -/
structure Ctx where
  t : Tuners
  pol : Policy
  table : List Nat
  jtu : Nat → Nat
  now : Nat
  last_input_time : Nat
  online : Nat
  possible : Nat
  hf : Nat → Nat × Nat
  hr : Nat → Nat × Nat
  samples : List CpuTimes


/-- The frequency command a tick issues (which return point of
dbs_check_cpu fired), carrying the requested frequency. -/
inductive FreqAction
  | boost (f : Nat)
  | hardLimit (f : Nat)
  | increase (f : Nat)
  | decrease (f : Nat)
  | noop
deriving DecidableEq, Repr


/-- The hotplug work a tick queues. -/
inductive HotplugAction
  | up
  | down
  | noop
deriving DecidableEq, Repr


/-- Result of one tick: the new state, the frequency action, the hotplug
action, and (for specification purposes) the hard frequency ceiling the
tick enforced — `none` when the input-boost path fired before the hard
limit was computed. -/
structure TickOut where
  sys : Sys
  act : FreqAction
  hot : HotplugAction
  hard : Option Nat


/-- is_boosted(): input boost frequency configured and the input event
recent enough. -/
def is_boosted (t : Tuners) (now last_input_time : Nat) : Bool :=
  decide (t.input_boost_freq > 0) && decide (now < last_input_time + t.input_boost_us)


/-- get_nr_run_avg(): return the current weighted average and zero it
(total_time and last_time are not touched by the read). -/
def get_nr_run_avg (rq : RqData) : Nat × RqData :=
  (rq.nr_run_avg, { rq with nr_run_avg := 0 })


/-- rq_work_fn(): one sampler tick at time cur_time (ns) observing
nr_running runnable tasks.  The stored average is a C unsigned int. -/
def rq_work_fn (rq : RqData) (cur_time nr_running : Nat) : RqData :=
  let last_time := if rq.last_time == 0 then cur_time else rq.last_time
  let total_time := if rq.nr_run_avg == 0 then 0 else rq.total_time
  let nr_run := nr_running * 100
  let time_diff := (cur_time - last_time) / 1000000
  let nr_run1 :=
    if time_diff != 0 && total_time != 0 then
      (nr_run * time_diff + rq.nr_run_avg * total_time) / (total_time + time_diff)
    else nr_run
  { nr_run_avg := u32 nr_run1, last_time := cur_time, total_time := total_time + time_diff }


/-- recalculate_down_threshold(): the derived per-core down_threshold from
the tunables, freq_lo and the current hardware frequency. -/
def recalculate_down_threshold (t : Tuners) (freq_lo cur : Nat) : Nat :=
  let temp := (t.up_threshold - t.down_differential) * freq_lo / cur
  if temp < 10 || temp > t.up_threshold - t.down_differential then
    (t.up_threshold - t.down_differential) / 2
  else temp


/-- store_up_threshold: accept the input only when
down_differential < input ≤ 100; on rejection the tuners are unchanged
and false (the C -EINVAL) is returned. -/
def store_up_threshold (t : Tuners) (input : Nat) : Tuners × Bool :=
  if t.down_differential < input ∧ input ≤ 100 then
    ({ t with up_threshold := input }, true)
  else (t, false)


/-- store_down_differential: accept the input only when
0 < input < up_threshold; on rejection the tuners are unchanged. -/
def store_down_differential (t : Tuners) (input : Nat) : Tuners × Bool :=
  if 0 < input ∧ input < t.up_threshold then
    ({ t with down_differential := input }, true)
  else (t, false)


/-- One store request to either threshold tunable. -/
inductive ThresholdStore
  | upThreshold (v : Nat)
  | downDifferential (v : Nat)
deriving DecidableEq, Repr


def applyThresholdStore (t : Tuners) : ThresholdStore → Tuners × Bool
  | .upThreshold v => store_up_threshold t v
  | .downDifferential v => store_down_differential t v


/-- The configuration invariant of the threshold pair. -/
def tunersInv (t : Tuners) : Prop :=
  t.down_differential < t.up_threshold ∧ t.up_threshold ≤ 100


/-- The window of the last `rate` history records ending at index
numHist - 1 (the loop for (i = num_hist-1; i >= num_hist-rate; --i),
listed in ascending index order; min/max folds are order-independent). -/
def histWindow (hist : Nat → Nat × Nat) (numHist rate : Nat) : List (Nat × Nat) :=
  (List.range rate).map (fun k => hist (numHist - rate + k))


/-- check_up(): returns the decision and the resulting num_hist
(reset to 0 exactly when the history-window test succeeds). -/
def check_up (t : Tuners) (boosted : Bool) (online possible : Nat)
    (hf hr : Nat → Nat × Nat) (hist : Nat → Nat × Nat) (numHist : Nat) :
    Bool × Nat :=
  let up_rate := t.cpu_up_rate
  let up_freq := (hf (online - 1)).2
  let up_rq := (hr (online - 1)).2
  if online == possible then (false, numHist)
  else if decide (t.max_cpu_lock ≠ 0) && decide (online ≥ t.max_cpu_lock) then (false, numHist)
  else if decide (t.min_cpu_lock ≠ 0) && decide (online < t.min_cpu_lock) then (true, numHist)
  else if boosted && decide (t.boost_mincpus ≠ 0) && decide (online < t.boost_mincpus) then (true, numHist)
  else if numHist == 0 || numHist % up_rate != 0 then (false, numHist)
  else
    let w := histWindow hist numHist up_rate
    let min_freq := w.foldl (fun m u => if m ≤ u.1 then m else u.1) INT_MAX
    let min_rq_avg := w.foldl (fun m u => if m ≤ u.2 then m else u.2) INT_MAX
    if decide (min_freq ≥ up_freq) && decide (min_rq_avg > up_rq) then (true, 0)
    else (false, numHist)


/-- check_down(): returns the decision and the resulting num_hist
(reset to 0 exactly when the history-window test succeeds). -/
def check_down (t : Tuners) (boosted : Bool) (online : Nat)
    (hf hr : Nat → Nat × Nat) (hist : Nat → Nat × Nat) (numHist : Nat) :
    Bool × Nat :=
  let down_rate := t.cpu_down_rate
  let down_freq := (hf (online - 1)).1
  let down_rq := (hr (online - 1)).1
  if boosted && decide (t.boost_mincpus ≠ 0) && decide (online ≤ t.boost_mincpus) then (false, numHist)
  else if online == 1 then (false, numHist)
  else if decide (t.max_cpu_lock ≠ 0) && decide (online > t.max_cpu_lock) then (true, numHist)
  else if decide (t.min_cpu_lock ≠ 0) && decide (online ≤ t.min_cpu_lock) then (false, numHist)
  else if numHist == 0 || numHist % down_rate != 0 then (false, numHist)
  else
    let w := histWindow hist numHist down_rate
    let max_freq := w.foldl (fun m u => if u.1 ≤ m then m else u.1) 0
    let max_rq_avg := w.foldl (fun m u => if u.2 ≤ m then m else u.2) 0
    if decide (max_freq ≤ down_freq) && decide (max_rq_avg ≤ down_rq) then (true, 0)
    else (false, numHist)


/-- Restatement of the check_up history-window rule in the spec's words:
over the last up_rate samples, every frequency is at least the up
threshold and every run-queue average is strictly above the rq
threshold (equivalently min freq ≥ up_freq and min rq_avg > up_rq). -/
def spec_up_window_pass (up_freq up_rq : Nat) (w : List (Nat × Nat)) : Bool :=
  w.all (fun u => decide (up_freq ≤ u.1)) && w.all (fun u => decide (up_rq < u.2))


/-- oc_freq_delta as computed at lines 1277-1280: nonzero only while
active with the current frequency above max_non_oc_freq and a nonzero
overclock credit. -/
def ocFreqDelta (t : Tuners) (active : Bool) (cur oc0 : Nat) : Nat :=
  if active && decide (cur > t.max_non_oc_freq) && decide (oc0 ≠ 0) then
    (cur - t.max_non_oc_freq) / 1000
  else 0


/-- The guard of the nice-time adjustment (lines 1325-1329);
IGNORE_NICE_STANDBY = 1, IGNORE_NICE_ALWAYS = 2. -/
def niceAdjustCond (t : Tuners) (active standbyF suspendF boosted : Bool) : Bool :=
  (active && decide (t.ignore_nice = 2)) ||
  (standbyF && decide (t.ignore_nice ≥ 1)) ||
  (suspendF && !boosted)


/-- wall_time of one cpu's sample: the (unsigned int) cast of the u64
counter difference. -/
def stepWallTime (prev cur : CpuTimes) : Nat := u32 (cur.wall - prev.wall)


/-- idle_time of one cpu's sample after the io-wait and nice adjustments
(lines 1307-1343). -/
def stepIdleTime (t : Tuners) (active standbyF suspendF boosted : Bool)
    (jtu : Nat → Nat) (prev cur : CpuTimes) : Nat :=
  let wall_time := stepWallTime prev cur
  let idle0 := u32 (cur.idle - prev.idle)
  let idle1 :=
    if decide (t.io_is_busy ≠ 1) || !active then
      let io_time := u32 (cur.iow - prev.iow)
      if decide (t.io_is_busy = 0) || !active then u32 (idle0 + io_time)
      else
        let max_busy_io_time := u32 (wall_time * t.io_is_busy) / 128
        if io_time ≥ max_busy_io_time then u32 (idle0 + (io_time - max_busy_io_time))
        else idle0
    else idle0
  if niceAdjustCond t active standbyF suspendF boosted then
    u32 (idle1 + jtu (cur.nice - prev.nice))
  else idle1


/-- One iteration of the load-accounting loop (lines 1294-1362) for one
cpu: given the previous and current counter snapshots, produce the
updated snapshot, the load (none when the sample is skipped because
wall_time is zero or inconsistent), and the oc_workload debit. -/
def loadStep (t : Tuners) (active standbyF suspendF boosted : Bool)
    (jtu : Nat → Nat) (oc_freq_delta : Nat) (prev cur : CpuTimes) :
    CpuTimes × Option Nat × Nat :=
  let wall_time := stepWallTime prev cur
  let idle2 := stepIdleTime t active standbyF suspendF boosted jtu prev cur
  let newPrev : CpuTimes :=
    { idle := cur.idle, wall := cur.wall, nice := cur.nice,
      iow := if decide (t.io_is_busy ≠ 1) || !active then cur.iow else prev.iow }
  if wall_time == 0 || wall_time < idle2 then (newPrev, none, 0)
  else
    let load := u32 (100 * (wall_time - idle2)) / wall_time
    let oc_workload :=
      if oc_freq_delta ≠ 0 then u32 (oc_freq_delta * (wall_time - idle2)) / 1000 else 0
    (newPrev, some load, oc_workload)


/-- The whole load loop: fold loadStep over the per-cpu snapshots and
samples, accumulating the updated snapshots, max_load, and the
(saturatingly debited) overclock credit. -/
def loadPhase (t : Tuners) (active standbyF suspendF boosted : Bool)
    (jtu : Nat → Nat) (oc_freq_delta : Nat) (prevs samples : List CpuTimes)
    (oc0 : Nat) : List CpuTimes × Nat × Nat :=
  (prevs.zip samples).foldl
    (fun acc pc =>
      let r := loadStep t active standbyF suspendF boosted jtu oc_freq_delta pc.1 pc.2
      match r.2.1 with
      | some load =>
        (acc.1 ++ [r.1], Nat.max acc.2.1 load,
         if acc.2.2 > r.2.2 then acc.2.2 - r.2.2 else 0)
      | none => (acc.1 ++ [r.1], acc.2.1, acc.2.2))
    ([], 0, oc0)


/-- Result of the frequency-changing logic of one tick. -/
structure FreqOut where
  core : CoreState
  standby : Bool
  delay : Nat
  act : FreqAction
  hard : Option Nat


/-- Table lookup as the tick performs it; when the lookup fails the C
code reads an uninitialized index (undefined behaviour), modelled by the
fallback value 0 — theorems touching these paths assume a table with an
entry inside the policy limits, which makes the lookup succeed. -/
def ftt (c : Ctx) (target : Nat) (rel : Relation) : Nat :=
  (freqTableTarget c.pol.min c.pol.max c.table target rel).getD 0


/-- The input-boost target frequency (freq_target at lines 1383-1401). -/
def boostTarget (t : Tuners) (pol : Policy) (suspendF : Bool) : Nat :=
  if suspendF then
    if decide (t.max_non_oc_freq ≠ 0) then
      if decide (t.oc_freq_boost_ms ≠ 0) then pol.max
      else t.max_non_oc_freq
    else pol.max
  else t.input_boost_freq


/-- max_freq_hard after the input-boost / suspend-limit step when the
boost did not fire (lines 1382-1411): while boosted in suspend the
boost branch may have lowered it to max_non_oc_freq (which there equals
the boost target); while not boosted in suspend it is the precomputed
suspend hard limit; otherwise it stays policy->max. -/
def hardAfterBoost (t : Tuners) (pol : Policy) (suspendF boosted : Bool) : Nat :=
  if boosted then
    if suspendF then boostTarget t pol suspendF else pol.max
  else if suspendF then t._suspend_max_freq_hard
  else pol.max


/-- max_freq_soft after the same step. -/
def softAfterBoost (t : Tuners) (pol : Policy) (suspendF boosted : Bool) : Nat :=
  if !boosted && suspendF then t._suspend_max_freq_soft else pol.max


/-- The turbo-boost (overclock credit) limit adjustment
(lines 1415-1424) applied to the (hard, soft) pair. -/
def ocLimits (t : Tuners) (active : Bool) (oc : Nat) (hard0 soft0 : Nat) :
    Nat × Nat :=
  if active && decide (t.max_non_oc_freq ≠ 0) && decide (t.oc_freq_boost_ms ≠ 0) then
    if oc == 0 then (t.max_non_oc_freq, soft0)
    else if oc < t._oc_limit then (hard0, t.max_non_oc_freq)
    else (hard0, soft0)
  else (hard0, soft0)


/-- The final hard frequency ceiling of one tick (the turbo-boost limits
of 1415-1424 applied to the post-boost pair, clamped to policy->max at
1428-1429), as a function of the post-debit credit. -/
def hardLimitOf (c : Ctx) (suspendF boosted active : Bool) (oc : Nat) : Nat :=
  let hs := ocLimits c.t active oc (hardAfterBoost c.t c.pol suspendF boosted)
    (softAfterBoost c.t c.pol suspendF boosted)
  if hs.1 > c.pol.max then c.pol.max else hs.1


/-- The soft ceiling after the turbo-boost limit step. -/
def softLimitOf (c : Ctx) (suspendF boosted active : Bool) (oc : Nat) : Nat :=
  (ocLimits c.t active oc (hardAfterBoost c.t c.pol suspendF boosted)
    (softAfterBoost c.t c.pol suspendF boosted)).2


/-- The frequency-increase step (lines 1439-1480), reached when max_load
exceeded the threshold: the updated core state and the command issued. -/
def freqIncrease (c : Ctx) (suspendF standbyF : Bool) (hard soft : Nat)
    (core : CoreState) : CoreState × FreqAction :=
  let t := c.t
  let pol := c.pol
  let soft1 := if standbyF then t._standby_max_freq_soft else soft
  let soft2 := if soft1 > hard then hard else soft1
  let coreA := { core with down_skip := 0 }
  if coreA.requested_freq ≥ soft2 then (coreA, .noop)
  else
    let coreB := { coreA with standby_counter := 0 }
    -- frequency increase delays (1455-1466): whether the mode's delay
    -- counter blocks this tick, and the incremented counter value
    let du : Bool × Nat :=
      if suspendF then
        (decide (coreB.sampling_up_counter + 1 < t.suspend_sampling_up_factor),
         coreB.sampling_up_counter + 1)
      else if standbyF then
        (decide (coreB.sampling_up_counter + 1 < t.standby_sampling_up_factor),
         coreB.sampling_up_counter + 1)
      else if decide (t.power_optimal_freq ≠ 0) && decide (pol.cur ≥ t.power_optimal_freq) then
        (decide (coreB.sampling_up_counter + 1 < t.high_freq_sampling_up_factor),
         coreB.sampling_up_counter + 1)
      else (false, coreB.sampling_up_counter)
    if du.1 then ({ coreB with sampling_up_counter := du.2 }, .noop)
    else
      -- counter reset at 1468, then the next-higher table entry above
      -- policy->cur, clamped to policy->max (1470-1474)
      let coreC := { coreB with sampling_up_counter := 0 }
      let nf0 := ftt c (pol.cur + 1) .L
      let nf := if nf0 > pol.max then pol.max else nf0
      ({ coreC with requested_freq := nf }, .increase nf)


/-- The standby-activation bookkeeping (lines 1486-1497), reached with the
load at or below the threshold: the updated core state (whose
sampling_up_counter was already reset at 1484), the standby flag and the
sampling delay. -/
def standbyCheck (c : Ctx) (active boosted standbyF : Bool) (delay0 : Nat)
    (core : CoreState) : CoreState × Bool × Nat :=
  if decide (c.pol.cur ≤ c.t._standby_threshold_freq) then
    if active && !boosted then
      let sc := core.standby_counter + 1
      if sc ≥ c.t.standby_delay_factor then
        ({ core with standby_counter := sc, oc_boost_cycles := 0 }, true,
         c.t.standby_sampling_rate)
      else ({ core with standby_counter := sc }, standbyF, c.t.standby_sampling_rate)
    else (core, standbyF, delay0)
  else (core, standbyF, delay0)


/-- The frequency-decrease step (lines 1506-1541): the updated core state
and the command issued. -/
def freqDecrease (c : Ctx) (active boosted : Bool) (max_load : Nat)
    (core : CoreState) : CoreState × FreqAction :=
  let t := c.t
  let pol := c.pol
  if decide (max_load < core.down_threshold) &&
      (!boosted || decide (pol.cur > t.input_boost_freq)) then
    let msf0 := core.requested_freq * max_load / (t.up_threshold - t.down_differential)
    let msf := ftt c msf0 .L
    if active then
      let coreF := { core with down_skip := core.down_skip + 1 }
      let relaxBlocked : Bool :=
        if decide (t.sampling_down_factor_relax_khz = 0) ||
            decide (coreF.freq_lo < pol.min + t.sampling_down_factor_relax_khz) then
          true
        else
          decide (msf > ftt c (coreF.freq_lo - t.sampling_down_factor_relax_khz) .L)
      if coreF.down_skip < t.sampling_down_factor && relaxBlocked then (coreF, .noop)
      else
        let nf := if coreF.freq_lo < pol.min then pol.min else coreF.freq_lo
        ({ coreF with requested_freq := nf, down_skip := 0 }, .decrease nf)
    else
      let nf := if msf < pol.min then pol.min else msf
      ({ core with requested_freq := nf, down_skip := 0 }, .decrease nf)
  else ({ core with down_skip := 0 }, .noop)


/-- The frequency-changing logic of dbs_check_cpu (lines 1380-1541),
entered after the load loop and hotplug checks with the aggregated
max_load and the (already debited) per-core state. -/
def freqPhase (c : Ctx) (suspendF standbyF boosted active : Bool)
    (delay0 max_load : Nat) (core : CoreState) : FreqOut :=
  let t := c.t
  let pol := c.pol
  -- input boost logic (1382-1411)
  if boosted && decide (pol.cur < boostTarget t pol suspendF) then
    { core := { core with requested_freq := boostTarget t pol suspendF },
      standby := standbyF, delay := delay0,
      act := .boost (boostTarget t pol suspendF), hard := none }
  else
    -- turbo boost limits and hard-limit enforcement (1415-1436)
    let hard := hardLimitOf c suspendF boosted active core.oc_boost_cycles
    let soft := softLimitOf c suspendF boosted active core.oc_boost_cycles
    if core.requested_freq > hard then
      { core := { core with requested_freq := hard }, standby := standbyF,
        delay := delay0, act := .hardLimit hard, hard := some hard }
    else if max_load > (if active then t.up_threshold else 99) then
      -- check for frequency increase (1438-1480)
      let r := freqIncrease c suspendF standbyF hard soft core
      { core := r.1, standby := standbyF, delay := delay0, act := r.2,
        hard := some hard }
    else
      -- standby activation (1483-1500), then frequency decrease (1506-1541)
      let sb := standbyCheck c active boosted standbyF delay0
        { core with sampling_up_counter := 0 }
      if decide (pol.cur ≤ t._standby_threshold_freq) && (pol.cur == pol.min) then
        { core := sb.1, standby := sb.2.1, delay := sb.2.2, act := .noop,
          hard := some hard }
      else
        let r := freqDecrease c active boosted max_load sb.1
        { core := r.1, standby := sb.2.1, delay := sb.2.2, act := r.2,
          hard := some hard }


/-- The load loop as the tick invokes it. -/
def tickLoadPhase (c : Ctx) (s : Sys) : List CpuTimes × Nat × Nat :=
  let boosted := is_boosted c.t c.now c.last_input_time
  let active := !(s.suspend || s.standby)
  loadPhase c.t active s.standby s.suspend boosted c.jtu
    (ocFreqDelta c.t active c.pol.cur s.core.oc_boost_cycles)
    s.prevs c.samples s.core.oc_boost_cycles


/-- The aggregate (max over cpus) load one tick computes. -/
def tickMaxLoad (c : Ctx) (s : Sys) : Nat := (tickLoadPhase c s).2.1


/-- The history buffer after this tick's push (overflow guard at 1268-1272,
push at 1273-1275). -/
def tickHist (c : Ctx) (s : Sys) : Nat → Nat × Nat :=
  let num_hist0 := if s.num_hist ≥ MAX_HOTPLUG_RATE then 0 else s.num_hist
  fun i => if i == num_hist0 then (c.pol.cur, s.rq.nr_run_avg) else s.hist i


/-- num_hist after this tick's push. -/
def tickNumHist (s : Sys) : Nat :=
  (if s.num_hist ≥ MAX_HOTPLUG_RATE then 0 else s.num_hist) + 1


/-- The hotplug work one tick queues (lines 1365-1373): check_up is
evaluated first on the freshly pushed history; check_down only when
check_up returned false; a true check_down queues the down work only
under (standby || suspend). -/
def tickHot (c : Ctx) (s : Sys) : HotplugAction :=
  let boosted := is_boosted c.t c.now c.last_input_time
  if (check_up c.t boosted c.online c.possible c.hf c.hr
      (tickHist c s) (tickNumHist s)).1 then .up
  else if (check_down c.t boosted c.online c.hf c.hr
      (tickHist c s) (tickNumHist s)).1 then
    (if s.standby || s.suspend then .down else .noop)
  else .noop


/-- num_hist at the end of the tick: the value the evaluated checks left
(check_down is reached only when check_up returned false, and a
non-firing check leaves the count at the pushed value), then the
max-hotplug-rate reset of lines 1375-1376. -/
def tickNumHistAfter (c : Ctx) (s : Sys) : Nat :=
  let boosted := is_boosted c.t c.now c.last_input_time
  let up := check_up c.t boosted c.online c.possible c.hf c.hr
    (tickHist c s) (tickNumHist s)
  let n := if up.1 then up.2
    else (check_down c.t boosted c.online c.hf c.hr
      (tickHist c s) (tickNumHist s)).2
  if n == Nat.max c.t.cpu_up_rate c.t.cpu_down_rate then 0 else n


/-- dbs_check_cpu(): one decision tick of the governor for one core. -/
def dbs_check_cpu (c : Ctx) (s : Sys) : TickOut :=
  -- the load accounting and overclock debit (1277-1363) feed the
  -- frequency logic (1380-1541); the history push (1268-1275) feeds the
  -- hotplug checks (1365-1376); get_nr_run_avg's drain (1274) leaves the
  -- zeroed run-queue accumulator
  let fp := freqPhase c s.suspend s.standby
    (is_boosted c.t c.now c.last_input_time) (!(s.suspend || s.standby))
    s.delay (tickLoadPhase c s).2.1
    { s.core with oc_boost_cycles := (tickLoadPhase c s).2.2 }
  { sys := { suspend := s.suspend, standby := fp.standby, delay := fp.delay,
             hist := tickHist c s, num_hist := tickNumHistAfter c s,
             rq := (get_nr_run_avg s.rq).2,
             core := fp.core, prevs := (tickLoadPhase c s).1 },
    act := fp.act, hot := tickHot c s, hard := fp.hard }


/-- The frequency-phase application one tick performs. -/
def tickFreqPhase (c : Ctx) (s : Sys) : FreqOut :=
  freqPhase c s.suspend s.standby
    (is_boosted c.t c.now c.last_input_time) (!(s.suspend || s.standby))
    s.delay (tickLoadPhase c s).2.1
    { s.core with oc_boost_cycles := (tickLoadPhase c s).2.2 }


/-
Concrete fixtures used by witnesses and counterexamples.  baseTuners
mirrors the dbs_tuners_ins initializer where a value is needed
(io_is_busy = 10*128/100 = 12) and switches the input boost and the
overclock window off, so fixtures opt into them field by field.
-/

def baseTuners : Tuners :=
  { input_boost_freq := 0, input_boost_us := 0, power_optimal_freq := 0,
    high_freq_sampling_up_factor := 2, up_threshold := 85, down_differential := 5,
    ignore_nice := 0, io_is_busy := 12, sampling_rate := 3, sampling_down_factor := 1,
    sampling_down_factor_relax_khz := 0, max_non_oc_freq := 0, oc_freq_boost_ms := 0,
    standby_delay_factor := 1, standby_threshold_freq := 100000,
    standby_sampling_rate := 2, standby_sampling_up_factor := 5,
    suspend_sampling_rate := 3, suspend_sampling_up_factor := 7, suspend_max_freq := 0,
    cpu_up_rate := 10, cpu_down_rate := 20, max_cpu_lock := 0, min_cpu_lock := 0,
    boost_mincpus := 0,
    _suspend_max_freq_soft := 0, _suspend_max_freq_hard := 0,
    _standby_max_freq_soft := 0, _oc_limit := 0, _standby_threshold_freq := 0 }


def baseTable : List Nat := [100000, 200000, 400000, 600000, 800000, 1000000]


def basePolicy : Policy := { min := 100000, max := 1000000, cur := 400000 }


def baseCtx : Ctx :=
  { t := baseTuners, pol := basePolicy, table := baseTable, jtu := fun j => j,
    now := 0, last_input_time := 0, online := 4, possible := 4,
    hf := fun _ => (0, 0), hr := fun _ => (0, 0),
    samples := [⟨0, 1000, 0, 0⟩] }


def baseSys : Sys :=
  { suspend := false, standby := false, delay := 3,
    hist := fun _ => (0, 0), num_hist := 0, rq := ⟨0, 0, 0⟩,
    core := { requested_freq := 200000, freq_lo := 200000, down_skip := 0,
              sampling_up_counter := 0, standby_counter := 0,
              down_threshold := 40, oc_boost_cycles := 0 },
    prevs := [⟨0, 0, 0, 0⟩] }


def c3Ctx : Ctx :=
  { baseCtx with t := { baseTuners with min_cpu_lock := 4 }, online := 2 }


def c3Sys : Sys :=
  { baseSys with num_hist := 1 }


def c2Ctx : Ctx :=
  { baseCtx with t := { baseTuners with max_non_oc_freq := 400000, oc_freq_boost_ms := 1, _oc_limit := 1000 } }


def c2wSys : Sys :=
  { baseSys with core := { baseSys.core with requested_freq := 800000 } }


def c1Ctx : Ctx :=
  { baseCtx with t := { baseTuners with _suspend_max_freq_soft := 600000, _suspend_max_freq_hard := 600000, _standby_max_freq_soft := 800000 } }


def c4Ctx : Ctx :=
  { baseCtx with t := { baseTuners with standby_delay_factor := 2, _standby_threshold_freq := 150000 }, samples := [⟨1000, 1000, 0, 0⟩] }


def c4Sys : Sys :=
  { baseSys with core := { baseSys.core with requested_freq := 400000, standby_counter := 1 } }


def c4wCtx : Ctx :=
  { baseCtx with t := { baseTuners with _standby_threshold_freq := 150000 }, pol := { min := 100000, max := 1000000, cur := 120000 }, samples := [⟨1000, 1000, 0, 0⟩] }


def c4wSys : Sys :=
  { baseSys with core := { baseSys.core with requested_freq := 120000, down_threshold := 0 } }


def c6Tuners : Tuners :=
  { baseTuners with max_non_oc_freq := 900000, oc_freq_boost_ms := 2000, _oc_limit := 500, _standby_threshold_freq := 150000 }


def c6Ctx : Ctx :=
  { baseCtx with t := c6Tuners, pol := { min := 100000, max := 1000000, cur := 1000000 } }


def c6Core : CoreState :=
  { baseSys.core with requested_freq := 1000000, freq_lo := 800000, oc_boost_cycles := 500 }


def c6Sys : Sys :=
  { baseSys with core := c6Core }


theorem minN_mem : ∀ {l : List Nat} {m : Nat}, minN l = some m → m ∈ l := by
  intro l
  induction l with
  | nil => intro m h; simp [minN] at h
  | cons x xs ih =>
    intro m h
    simp only [minN] at h
    cases hxs : minN xs with
    | none => rw [hxs] at h; simp at h; simp [h]
    | some k =>
      rw [hxs] at h
      simp at h
      split at h
      · simp [← h]
      · right; exact h ▸ ih hxs


theorem maxN_mem : ∀ {l : List Nat} {m : Nat}, maxN l = some m → m ∈ l := by
  intro l
  induction l with
  | nil => intro m h; simp [maxN] at h
  | cons x xs ih =>
    intro m h
    simp only [maxN] at h
    cases hxs : maxN xs with
    | none => rw [hxs] at h; simp at h; simp [h]
    | some k =>
      rw [hxs] at h
      simp at h
      split at h
      · simp [← h]
      · right; exact h ▸ ih hxs


theorem minN_isSome {l : List Nat} (h : l ≠ []) : (minN l).isSome := by
  cases l with
  | nil => exact absurd rfl h
  | cons x xs =>
    simp only [minN]
    cases minN xs <;> simp


theorem maxN_isSome {l : List Nat} (h : l ≠ []) : (maxN l).isSome := by
  cases l with
  | nil => exact absurd rfl h
  | cons x xs =>
    simp only [maxN]
    cases maxN xs <;> simp


theorem validEntries_range {pmin pmax : Nat} {table : List Nat} {f : Nat}
    (h : f ∈ validEntries pmin pmax table) : pmin ≤ f ∧ f ≤ pmax := by
  have := List.of_mem_filter h
  simp at this
  exact this


theorem freqTableTarget_range {pmin pmax : Nat} {table : List Nat}
    {target : Nat} {rel : Relation} {f : Nat}
    (h : freqTableTarget pmin pmax table target rel = some f) :
    pmin ≤ f ∧ f ≤ pmax := by
  unfold freqTableTarget at h
  cases rel with
  | H =>
    simp only at h
    cases hm : maxN ((validEntries pmin pmax table).filter (fun f => decide (f ≤ target))) with
    | some o =>
      rw [hm] at h
      simp at h
      subst h
      exact validEntries_range (List.mem_of_mem_filter (maxN_mem hm))
    | none =>
      rw [hm] at h
      simp at h
      exact validEntries_range (List.mem_of_mem_filter (minN_mem h))
  | L =>
    simp only at h
    cases hm : minN ((validEntries pmin pmax table).filter (fun f => decide (target ≤ f))) with
    | some o =>
      rw [hm] at h
      simp at h
      subst h
      exact validEntries_range (List.mem_of_mem_filter (minN_mem hm))
    | none =>
      rw [hm] at h
      simp at h
      exact validEntries_range (List.mem_of_mem_filter (maxN_mem h))


theorem filter_or_filter_ne_nil {l : List Nat} (p : Nat → Bool) (h : l ≠ []) :
    l.filter p ≠ [] ∨ l.filter (fun x => !(p x)) ≠ [] := by
  cases l with
  | nil => exact absurd rfl h
  | cons x xs =>
    by_cases hp : p x
    · left
      simp [List.filter_cons, hp]
    · right
      simp [List.filter_cons, hp]


theorem freqTableTarget_isSome {pmin pmax : Nat} {table : List Nat}
    (h : validEntries pmin pmax table ≠ []) (target : Nat) (rel : Relation) :
    (freqTableTarget pmin pmax table target rel).isSome := by
  unfold freqTableTarget
  cases rel with
  | H =>
    simp only
    cases hm : maxN ((validEntries pmin pmax table).filter (fun f => decide (f ≤ target))) with
    | some o => simp
    | none =>
      simp only
      apply minN_isSome
      intro hnil
      rcases filter_or_filter_ne_nil (fun f => decide (f ≤ target)) h with hne | hne
      · rcases List.exists_mem_of_ne_nil _ hne with ⟨a, ha⟩
        have : maxN ((validEntries pmin pmax table).filter (fun f => decide (f ≤ target))) ≠ none := by
          intro hcon
          have := maxN_isSome (l := (validEntries pmin pmax table).filter (fun f => decide (f ≤ target)))
            (by intro hn; rw [hn] at ha; simp at ha)
          rw [hcon] at this; simp at this
        exact this hm
      · apply hne
        rw [← hnil]
        congr 1
        funext a
        simp only [← decide_not, decide_eq_decide]
        omega
  | L =>
    simp only
    cases hm : minN ((validEntries pmin pmax table).filter (fun f => decide (target ≤ f))) with
    | some o => simp
    | none =>
      simp only
      apply maxN_isSome
      intro hnil
      rcases filter_or_filter_ne_nil (fun f => decide (target ≤ f)) h with hne | hne
      · rcases List.exists_mem_of_ne_nil _ hne with ⟨a, ha⟩
        have : minN ((validEntries pmin pmax table).filter (fun f => decide (target ≤ f))) ≠ none := by
          intro hcon
          have := minN_isSome (l := (validEntries pmin pmax table).filter (fun f => decide (target ≤ f)))
            (by intro hn; rw [hn] at ha; simp at ha)
          rw [hcon] at this; simp at this
        exact this hm
      · apply hne
        rw [← hnil]
        congr 1
        funext a
        simp only [← decide_not, decide_eq_decide]
        omega


theorem dbs_check_cpu_core (c : Ctx) (s : Sys) :
    (dbs_check_cpu c s).sys.core = (tickFreqPhase c s).core := rfl


theorem dbs_check_cpu_act (c : Ctx) (s : Sys) :
    (dbs_check_cpu c s).act = (tickFreqPhase c s).act := rfl


theorem dbs_check_cpu_hard (c : Ctx) (s : Sys) :
    (dbs_check_cpu c s).hard = (tickFreqPhase c s).hard := rfl


theorem dbs_check_cpu_standby (c : Ctx) (s : Sys) :
    (dbs_check_cpu c s).sys.standby = (tickFreqPhase c s).standby := rfl


theorem dbs_check_cpu_delay (c : Ctx) (s : Sys) :
    (dbs_check_cpu c s).sys.delay = (tickFreqPhase c s).delay := rfl


theorem dbs_check_cpu_hot (c : Ctx) (s : Sys) :
    (dbs_check_cpu c s).hot = tickHot c s := rfl


theorem dbs_check_cpu_num_hist (c : Ctx) (s : Sys) :
    (dbs_check_cpu c s).sys.num_hist = tickNumHistAfter c s := rfl


theorem ftt_range (c : Ctx)
    (htab : validEntries c.pol.min c.pol.max c.table ≠ []) (target : Nat)
    (rel : Relation) :
    c.pol.min ≤ ftt c target rel ∧ ftt c target rel ≤ c.pol.max := by
  unfold ftt
  cases hft : freqTableTarget c.pol.min c.pol.max c.table target rel with
  | none =>
    have := freqTableTarget_isSome htab target rel
    rw [hft] at this
    simp at this
  | some f => simpa using freqTableTarget_range hft


theorem clampMax_bounds {pmin pmax v : Nat} (hpm : pmin ≤ pmax) (hv : pmin ≤ v) :
    pmin ≤ (if v > pmax then pmax else v) ∧ (if v > pmax then pmax else v) ≤ pmax := by
  split <;> omega


theorem clampMin_bounds {pmin pmax v : Nat} (hpm : pmin ≤ pmax) (hv : v ≤ pmax) :
    pmin ≤ (if v < pmin then pmin else v) ∧ (if v < pmin then pmin else v) ≤ pmax := by
  split <;> omega


theorem boostTarget_bounds (t : Tuners) (pol : Policy) (suspendF : Bool)
    (hpm : pol.min ≤ pol.max)
    (hibf : t.input_boost_freq = 0 ∨
      (pol.min ≤ t.input_boost_freq ∧ t.input_boost_freq ≤ pol.max))
    (hnoc : t.max_non_oc_freq = 0 ∨
      (pol.min ≤ t.max_non_oc_freq ∧ t.max_non_oc_freq ≤ pol.max))
    (hne : boostTarget t pol suspendF ≠ 0) :
    pol.min ≤ boostTarget t pol suspendF ∧ boostTarget t pol suspendF ≤ pol.max := by
  cases suspendF with
  | true =>
    by_cases h2 : t.max_non_oc_freq = 0
    · simp [boostTarget, h2]
      omega
    · by_cases h3 : t.oc_freq_boost_ms = 0
      · simp [boostTarget, h2, h3]
        rcases hnoc with h0 | hb
        · exact absurd h0 h2
        · exact hb
      · simp [boostTarget, h2, h3]
        omega
  | false =>
    simp only [boostTarget, Bool.false_eq_true, if_false] at hne ⊢
    rcases hibf with h0 | hb
    · exact absurd h0 hne
    · exact hb


theorem hardAfterBoost_bounds (t : Tuners) (pol : Policy) (suspendF boosted : Bool)
    (hpm : pol.min ≤ pol.max)
    (hnoc : t.max_non_oc_freq = 0 ∨
      (pol.min ≤ t.max_non_oc_freq ∧ t.max_non_oc_freq ≤ pol.max))
    (hsus1 : pol.min ≤ t._suspend_max_freq_hard) :
    pol.min ≤ hardAfterBoost t pol suspendF boosted := by
  cases boosted with
  | true =>
    cases suspendF with
    | true =>
      by_cases h2 : t.max_non_oc_freq = 0
      · simp [hardAfterBoost, boostTarget, h2]
        omega
      · by_cases h3 : t.oc_freq_boost_ms = 0
        · simp [hardAfterBoost, boostTarget, h2, h3]
          rcases hnoc with h0 | hb
          · exact absurd h0 h2
          · exact hb.1
        · simp [hardAfterBoost, boostTarget, h2, h3]
          omega
    | false =>
      simp [hardAfterBoost]
      omega
  | false =>
    cases suspendF with
    | true => simpa [hardAfterBoost] using hsus1
    | false =>
      simp [hardAfterBoost]
      omega


theorem ocLimits_hard_lower (t : Tuners) (active : Bool) (oc hard0 soft0 pmin : Nat)
    (h0 : pmin ≤ hard0)
    (hnoc : t.max_non_oc_freq = 0 ∨ pmin ≤ t.max_non_oc_freq) :
    pmin ≤ (ocLimits t active oc hard0 soft0).1 := by
  unfold ocLimits
  split
  case isTrue hc =>
    simp only [Bool.and_eq_true, decide_eq_true_eq] at hc
    split
    case isTrue h1 =>
      rcases hnoc with hz | hb
      · exact absurd hz hc.1.2
      · simpa using hb
    case isFalse h1 =>
      split <;> simpa using h0
  case isFalse hc => simpa using h0


theorem standbyCheck_fields (c : Ctx) (active boosted standbyF : Bool)
    (delay0 : Nat) (core : CoreState) :
    (standbyCheck c active boosted standbyF delay0 core).1.requested_freq =
      core.requested_freq ∧
    (standbyCheck c active boosted standbyF delay0 core).1.freq_lo = core.freq_lo ∧
    (standbyCheck c active boosted standbyF delay0 core).1.down_skip = core.down_skip ∧
    (standbyCheck c active boosted standbyF delay0 core).1.down_threshold =
      core.down_threshold := by
  simp only [standbyCheck]
  repeat' split
  all_goals simp


theorem hardLimitOf_bounds (c : Ctx) (suspendF boosted active : Bool) (oc : Nat)
    (hpm : c.pol.min ≤ c.pol.max)
    (hnoc : c.t.max_non_oc_freq = 0 ∨
      (c.pol.min ≤ c.t.max_non_oc_freq ∧ c.t.max_non_oc_freq ≤ c.pol.max))
    (hsus1 : c.pol.min ≤ c.t._suspend_max_freq_hard) :
    c.pol.min ≤ hardLimitOf c suspendF boosted active oc ∧
    hardLimitOf c suspendF boosted active oc ≤ c.pol.max := by
  unfold hardLimitOf
  have h0 := hardAfterBoost_bounds c.t c.pol suspendF boosted hpm hnoc hsus1
  have h1 : c.pol.min ≤ (ocLimits c.t active oc
      (hardAfterBoost c.t c.pol suspendF boosted)
      (softAfterBoost c.t c.pol suspendF boosted)).1 := by
    apply ocLimits_hard_lower _ _ _ _ _ _ h0
    rcases hnoc with h | h
    · exact Or.inl h
    · exact Or.inr h.1
  exact clampMax_bounds hpm h1


theorem freqIncrease_bounds (c : Ctx) (suspendF standbyF : Bool)
    (hard soft : Nat) (core : CoreState)
    (hpm : c.pol.min ≤ c.pol.max)
    (hr1 : c.pol.min ≤ core.requested_freq)
    (hr2 : core.requested_freq ≤ c.pol.max)
    (htab : validEntries c.pol.min c.pol.max c.table ≠ []) :
    c.pol.min ≤ (freqIncrease c suspendF standbyF hard soft core).1.requested_freq ∧
    (freqIncrease c suspendF standbyF hard soft core).1.requested_freq ≤ c.pol.max := by
  have hft := ftt_range c htab (c.pol.cur + 1) .L
  simp only [freqIncrease]
  repeat' split
  all_goals (try simp)
  all_goals omega


theorem freqDecrease_bounds (c : Ctx) (active boosted : Bool) (max_load : Nat)
    (core : CoreState)
    (hpm : c.pol.min ≤ c.pol.max)
    (hr1 : c.pol.min ≤ core.requested_freq)
    (hr2 : core.requested_freq ≤ c.pol.max)
    (hlo : core.freq_lo ≤ c.pol.max)
    (htab : validEntries c.pol.min c.pol.max c.table ≠ []) :
    c.pol.min ≤ (freqDecrease c active boosted max_load core).1.requested_freq ∧
    (freqDecrease c active boosted max_load core).1.requested_freq ≤ c.pol.max := by
  have hft := ftt_range c htab (core.requested_freq * max_load /
    (c.t.up_threshold - c.t.down_differential)) .L
  simp only [freqDecrease]
  repeat' split
  all_goals (try simp)
  all_goals omega


/-- Bounds of the requested frequency established by the frequency-changing
logic of one tick, for any load, under the validated-tunables reading:
every frequency tunable the paths can command (input_boost_freq,
max_non_oc_freq when nonzero — verify_freq-validated stores are clamped
into the policy limits — and the derived suspend hard limit) lies inside
[policy->min, policy->max], freq_lo (a table-target result or policy->min)
is at most policy->max, and the table has an entry inside the limits. -/
theorem freqPhase_requested_bounds (c : Ctx)
    (suspendF standbyF boosted active : Bool) (delay0 max_load : Nat)
    (core : CoreState)
    (hpm : c.pol.min ≤ c.pol.max)
    (hr1 : c.pol.min ≤ core.requested_freq)
    (hr2 : core.requested_freq ≤ c.pol.max)
    (hibf : c.t.input_boost_freq = 0 ∨
      (c.pol.min ≤ c.t.input_boost_freq ∧ c.t.input_boost_freq ≤ c.pol.max))
    (hnoc : c.t.max_non_oc_freq = 0 ∨
      (c.pol.min ≤ c.t.max_non_oc_freq ∧ c.t.max_non_oc_freq ≤ c.pol.max))
    (hsus1 : c.pol.min ≤ c.t._suspend_max_freq_hard)
    (hlo : core.freq_lo ≤ c.pol.max)
    (htab : validEntries c.pol.min c.pol.max c.table ≠ []) :
    c.pol.min ≤
      (freqPhase c suspendF standbyF boosted active delay0 max_load core).core.requested_freq ∧
    (freqPhase c suspendF standbyF boosted active delay0 max_load core).core.requested_freq ≤
      c.pol.max := by
  have hhard := hardLimitOf_bounds c suspendF boosted active core.oc_boost_cycles
    hpm hnoc hsus1
  have hsb := standbyCheck_fields c active boosted standbyF delay0
    { core with sampling_up_counter := 0 }
  simp only [freqPhase]
  split
  case isTrue hb =>
    -- the input-boost path fired: requested_freq := boostTarget, which is
    -- nonzero (policy->cur is below it) and within bounds
    simp only [Bool.and_eq_true, decide_eq_true_eq] at hb
    have hne : boostTarget c.t c.pol suspendF ≠ 0 := by omega
    have := boostTarget_bounds c.t c.pol suspendF hpm hibf hnoc hne
    simpa using this
  case isFalse hb =>
    split
    case isTrue hgt =>
      -- hard-limit enforcement fired: requested_freq := the clamped ceiling
      simpa using hhard
    case isFalse hgt =>
      -- the first split below resolves the mode test inside the threshold
      -- comparison; the remaining structure of both branches is identical
      split <;>
      · split
        case isTrue hload =>
          -- the frequency-increase step
          simpa using freqIncrease_bounds c suspendF standbyF
            (hardLimitOf c suspendF boosted active core.oc_boost_cycles)
            (softLimitOf c suspendF boosted active core.oc_boost_cycles)
            core hpm hr1 hr2 htab
        case isFalse hload =>
          split
          case isTrue hmin =>
            -- early break at policy->min: the standby bookkeeping leaves
            -- requested_freq unchanged
            simp only
            rw [hsb.1]
            simpa using And.intro hr1 hr2
          case isFalse hmin =>
            -- the frequency-decrease step, on the bookkept core state
            simp only
            apply freqDecrease_bounds c active boosted max_load _ hpm
            · rw [hsb.1]; simpa using hr1
            · rw [hsb.1]; simpa using hr2
            · rw [hsb.2.1]; simpa using hlo
            · exact htab


theorem freqIncrease_oc (c : Ctx) (suspendF standbyF : Bool) (hard soft : Nat)
    (core : CoreState) :
    (freqIncrease c suspendF standbyF hard soft core).1.oc_boost_cycles =
      core.oc_boost_cycles := by
  simp only [freqIncrease]
  repeat' split
  all_goals simp


theorem freqDecrease_oc (c : Ctx) (active boosted : Bool) (max_load : Nat)
    (core : CoreState) :
    (freqDecrease c active boosted max_load core).1.oc_boost_cycles =
      core.oc_boost_cycles := by
  simp only [freqDecrease]
  repeat' split
  all_goals simp


theorem standbyCheck_notq (c : Ctx) (active boosted standbyF : Bool)
    (delay0 : Nat) (core : CoreState)
    (hq : ¬(c.pol.cur ≤ c.t._standby_threshold_freq)) :
    standbyCheck c active boosted standbyF delay0 core = (core, standbyF, delay0) := by
  simp [standbyCheck, hq]


/-- Outside the standby-qualifying region (policy->cur above the standby
threshold) no step of the frequency logic touches the overclock credit:
the tick's final credit is the load loop's debited value. -/
theorem freqPhase_oc_preserved (c : Ctx) (suspendF standbyF boosted active : Bool)
    (delay0 max_load : Nat) (core : CoreState)
    (hq : c.t._standby_threshold_freq < c.pol.cur) :
    (freqPhase c suspendF standbyF boosted active delay0 max_load core).core.oc_boost_cycles =
      core.oc_boost_cycles := by
  have hq' : ¬(c.pol.cur ≤ c.t._standby_threshold_freq) := by omega
  have hsc := standbyCheck_notq c active boosted standbyF delay0
    { core with sampling_up_counter := 0 } hq'
  simp only [freqPhase, hsc]
  repeat' split
  all_goals simp [freqIncrease_oc, freqDecrease_oc]


/-- The load loop over a single valid cpu sample: the aggregated load and
the debited overclock credit (lines 1346-1362 for one cpu). -/
theorem loadPhase_single (t : Tuners) (active standbyF suspendF boosted : Bool)
    (jtu : Nat → Nat) (delta : Nat) (prev cur : CpuTimes) (oc0 : Nat)
    (hw : stepWallTime prev cur ≠ 0)
    (hi : stepIdleTime t active standbyF suspendF boosted jtu prev cur ≤
      stepWallTime prev cur) :
    (loadPhase t active standbyF suspendF boosted jtu delta [prev] [cur] oc0).2.1 =
      u32 (100 * (stepWallTime prev cur -
        stepIdleTime t active standbyF suspendF boosted jtu prev cur)) /
        stepWallTime prev cur ∧
    (loadPhase t active standbyF suspendF boosted jtu delta [prev] [cur] oc0).2.2 =
      oc0 - (if delta ≠ 0 then
        u32 (delta * (stepWallTime prev cur -
          stepIdleTime t active standbyF suspendF boosted jtu prev cur)) / 1000
        else 0) := by
  have hcond : (stepWallTime prev cur == 0 ||
      decide (stepWallTime prev cur <
        stepIdleTime t active standbyF suspendF boosted jtu prev cur)) = false := by
    simp
    omega
  simp only [loadPhase, loadStep, List.zip_cons_cons, List.zip_nil_right,
    List.foldl_cons, List.foldl_nil, hcond, Bool.false_eq_true, if_false]
  constructor
  · first
      | rfl
      | simp [Nat.zero_max]
  · repeat' split
    all_goals omega


theorem foldl_ite_min_ge (l : List Nat) (a k : Nat) :
    k ≤ l.foldl (fun m v => if m ≤ v then m else v) a ↔
      (k ≤ a ∧ ∀ v ∈ l, k ≤ v) := by
  induction l generalizing a with
  | nil => simp
  | cons x xs ih =>
    simp only [List.foldl_cons]
    rw [ih]
    constructor
    · rintro ⟨h1, h2⟩
      refine ⟨?_, ?_⟩
      · split at h1 <;> omega
      · intro u hu
        rcases List.mem_cons.mp hu with rfl | hu
        · split at h1 <;> omega
        · exact h2 u hu
    · rintro ⟨h1, h2⟩
      refine ⟨?_, fun u hu => h2 u (List.mem_cons_of_mem _ hu)⟩
      have hx := h2 x (List.mem_cons_self _ _)
      split <;> omega


theorem foldl_ite_min_gt (l : List Nat) (a k : Nat) :
    k < l.foldl (fun m v => if m ≤ v then m else v) a ↔
      (k < a ∧ ∀ v ∈ l, k < v) := by
  induction l generalizing a with
  | nil => simp
  | cons x xs ih =>
    simp only [List.foldl_cons]
    rw [ih]
    constructor
    · rintro ⟨h1, h2⟩
      refine ⟨?_, ?_⟩
      · split at h1 <;> omega
      · intro u hu
        rcases List.mem_cons.mp hu with rfl | hu
        · split at h1 <;> omega
        · exact h2 u hu
    · rintro ⟨h1, h2⟩
      refine ⟨?_, fun u hu => h2 u (List.mem_cons_of_mem _ hu)⟩
      have hx := h2 x (List.mem_cons_self _ _)
      split <;> omega


theorem histWindow_ne_nil (hist : Nat → Nat × Nat) (numHist rate : Nat)
    (hrate : 0 < rate) : histWindow hist numHist rate ≠ [] := by
  simp only [histWindow, ne_eq, List.map_eq_nil_iff, List.range_eq_nil]
  omega


/-
Claim C7.  The claim says a read of the run-queue tracker zeroes both the
average and the accumulated total time.  get_nr_run_avg (lines 124-135)
zeroes only nr_run_avg; total_time is left in place and is instead reset
by the next rq_work_fn tick, which observes nr_run_avg == 0 (lines
101-102).  The counterexample exhibits a read that leaves total_time at 5.
-/

/-- Claim C7 counterexample: reading the tracker in state
(avg 7, last_time 3, total_time 5) leaves total_time at 5, not 0, so the
read does not zero the accumulated total time as the claim states. -/
theorem c7_counterexample :
    (get_nr_run_avg ⟨7, 3, 5⟩).2.total_time = 5 ∧ (5 : Nat) ≠ 0 := by
  constructor
  · rfl
  · decide


/-- Claim C7 (amended): a read returns the current weighted average and
zeroes only the average (total_time is untouched), so a second
consecutive read returns 0; the accumulated total time is zeroed by the
next sampler tick, which on seeing a zero average restarts the
accumulation from this tick alone (average n*100, total equal to this
tick's elapsed time). -/
theorem c7_drain_amended (rq : RqData) (ct n : Nat) :
    (get_nr_run_avg rq).1 = rq.nr_run_avg ∧
    (get_nr_run_avg rq).2.nr_run_avg = 0 ∧
    (get_nr_run_avg rq).2.total_time = rq.total_time ∧
    (get_nr_run_avg (get_nr_run_avg rq).2).1 = 0 ∧
    (rq.nr_run_avg = 0 →
      (rq_work_fn rq ct n).nr_run_avg = u32 (n * 100) ∧
      (rq_work_fn rq ct n).total_time =
        (ct - (if rq.last_time == 0 then ct else rq.last_time)) / 1000000) := by
  refine ⟨rfl, rfl, rfl, rfl, fun h => ?_⟩
  simp [rq_work_fn, h]


/-- Claim C7 witness: the amended theorem at a concrete state — after a
read of (avg 7, last 1000000, total 5) a second read returns 0, and a
sampler tick from the drained state at time 3000000 with 3 runnable
tasks restarts the accumulator at (300, total 2). -/
theorem c7_witness :
    (get_nr_run_avg (get_nr_run_avg ⟨7, 1000000, 5⟩).2).1 = 0 ∧
    (rq_work_fn ⟨0, 1000000, 5⟩ 3000000 3).nr_run_avg = 300 ∧
    (rq_work_fn ⟨0, 1000000, 5⟩ 3000000 3).total_time = 2 := by
  have h1 := (c7_drain_amended ⟨7, 1000000, 5⟩ 0 0).2.2.2.1
  have h2 := (c7_drain_amended ⟨0, 1000000, 5⟩ 3000000 3).2.2.2.2 rfl
  exact ⟨h1, by simpa [u32, U32] using h2.1, by simpa using h2.2⟩


/-
Claim C8.  recalculate_down_threshold (lines 454-460).
-/

/-- Claim C8: whenever down_threshold is recomputed, the new value is
(up_threshold − down_differential) * freq_lo / cur when that quotient
lies in [10, up_threshold − down_differential], and
(up_threshold − down_differential)/2 when it falls outside that range. -/
theorem c8_down_threshold_recalc (t : Tuners) (freq_lo cur : Nat)
    (hcur : 0 < cur) :
    ((10 ≤ (t.up_threshold - t.down_differential) * freq_lo / cur ∧
      (t.up_threshold - t.down_differential) * freq_lo / cur ≤
        t.up_threshold - t.down_differential) →
      recalculate_down_threshold t freq_lo cur =
        (t.up_threshold - t.down_differential) * freq_lo / cur) ∧
    (((t.up_threshold - t.down_differential) * freq_lo / cur < 10 ∨
      t.up_threshold - t.down_differential <
        (t.up_threshold - t.down_differential) * freq_lo / cur) →
      recalculate_down_threshold t freq_lo cur =
        (t.up_threshold - t.down_differential) / 2) := by
  simp only [recalculate_down_threshold]
  constructor <;> intro h <;> split <;>
    first
      | rfl
      | (rename_i hc
         simp only [Bool.or_eq_true, decide_eq_true_eq, not_or] at hc
         omega)


/-- Claim C8 witness: with up_threshold 85, down_differential 5,
freq_lo 500000 at current frequency 1000000 the quotient 80*1/2 = 40 is
inside [10, 80], so the recomputed down_threshold is 40; with freq_lo
100000 the quotient 8 falls below 10, so the half-span default 40 is
used. -/
theorem c8_witness :
    0 < 1000000 ∧
    recalculate_down_threshold baseTuners 500000 1000000 = 40 ∧
    recalculate_down_threshold baseTuners 100000 1000000 = 40 := by
  refine ⟨by decide, ?_, ?_⟩
  · have := (c8_down_threshold_recalc baseTuners 500000 1000000 (by decide)).1
      (by decide)
    simpa using this
  · have := (c8_down_threshold_recalc baseTuners 100000 1000000 (by decide)).2
      (by decide)
    simpa using this


/-
Claim C9.  store_up_threshold / store_down_differential via __store_int
(lines 632-645, 688-698).
-/

theorem applyThresholdStore_inv (t : Tuners) (cmd : ThresholdStore)
    (h : tunersInv t) : tunersInv (applyThresholdStore t cmd).1 := by
  cases cmd with
  | upThreshold v =>
    simp only [applyThresholdStore, store_up_threshold]
    split
    · simp only [tunersInv] at *
      constructor <;> (try simp) <;> omega
    · exact h
  | downDifferential v =>
    simp only [applyThresholdStore, store_down_differential]
    split
    · simp only [tunersInv] at *
      constructor <;> (try simp) <;> omega
    · exact h


theorem thresholdStores_inv (l : List ThresholdStore) :
    ∀ t : Tuners, tunersInv t →
      tunersInv (l.foldl (fun a cmd => (applyThresholdStore a cmd).1) t) := by
  induction l with
  | nil => intro t h; simpa using h
  | cons cmd rest ih =>
    intro t h
    simp only [List.foldl_cons]
    exact ih _ (applyThresholdStore_inv t cmd h)


/-- Claim C9: out-of-range inputs to the up_threshold and
down_differential setters are rejected with the prior value retained
(the stored pair is unchanged and false — the C -EINVAL — is returned),
and the invariant down_differential < up_threshold ≤ 100 holds after any
sequence of setter calls starting from a state satisfying it. -/
theorem c9_threshold_store_validation (t : Tuners) (h : tunersInv t) :
    (∀ input, ¬(t.down_differential < input ∧ input ≤ 100) →
      store_up_threshold t input = (t, false)) ∧
    (∀ input, ¬(0 < input ∧ input < t.up_threshold) →
      store_down_differential t input = (t, false)) ∧
    (∀ l : List ThresholdStore,
      tunersInv (l.foldl (fun a cmd => (applyThresholdStore a cmd).1) t)) := by
  refine ⟨?_, ?_, fun l => thresholdStores_inv l t h⟩
  · intro input hno
    simp only [store_up_threshold]
    split
    · exact absurd (by assumption) hno
    · rfl
  · intro input hno
    simp only [store_down_differential]
    split
    · exact absurd (by assumption) hno
    · rfl


/-- Claim C9 witness: from the default (5, 85) configuration, storing
up_threshold 4 (not above down_differential) is rejected unchanged, and
the invariant holds after the call sequence
[up 90, down 200 (rejected), down 89, up 101 (rejected)]. -/
theorem c9_witness :
    store_up_threshold baseTuners 4 = (baseTuners, false) ∧
    tunersInv ([ThresholdStore.upThreshold 90, ThresholdStore.downDifferential 200,
        ThresholdStore.downDifferential 89, ThresholdStore.upThreshold 101].foldl
      (fun a cmd => (applyThresholdStore a cmd).1) baseTuners) := by
  have h := c9_threshold_store_validation baseTuners (by constructor <;> decide)
  exact ⟨h.1 4 (by decide), h.2.2 _⟩


/-
Claim C10.  Lines 1365-1373: the down work is queued only under
(standby || suspend), even when check_down() returned true.
-/

/-- Claim C10: while the governor is Active (neither standby nor
suspend), a tick never queues a core-offline action. -/
theorem c10_no_offline_while_active (c : Ctx) (s : Sys)
    (hsus : s.suspend = false) (hstb : s.standby = false) :
    (dbs_check_cpu c s).hot ≠ HotplugAction.down := by
  rw [dbs_check_cpu_hot]
  simp only [tickHot, hsus, hstb, Bool.or_self, if_false]
  split
  · simp
  · split <;> simp


/-- Claim C10 witness: the base fixture is Active and its tick queues no
offline action. -/
theorem c10_witness :
    baseSys.suspend = false ∧ baseSys.standby = false ∧
    (dbs_check_cpu baseCtx baseSys).hot ≠ HotplugAction.down :=
  ⟨rfl, rfl, c10_no_offline_while_active baseCtx baseSys rfl rfl⟩


theorem freqDecrease_standby_counter (c : Ctx) (active boosted : Bool)
    (max_load : Nat) (core : CoreState) :
    (freqDecrease c active boosted max_load core).1.standby_counter =
      core.standby_counter := by
  simp only [freqDecrease]
  repeat' split
  all_goals simp


/-- The hard-limit enforcement fires (while not boosted) exactly the
hardLimit action carrying the clamped ceiling. -/
theorem freqPhase_hard_fire (c : Ctx) (suspendF standbyF active : Bool)
    (delay0 max_load : Nat) (core : CoreState)
    (hgt : core.requested_freq >
      hardLimitOf c suspendF false active core.oc_boost_cycles) :
    (freqPhase c suspendF standbyF false active delay0 max_load core).act =
      FreqAction.hardLimit
        (hardLimitOf c suspendF false active core.oc_boost_cycles) := by
  simp only [freqPhase, Bool.false_and, Bool.false_eq_true, if_false,
    if_pos hgt]


/-- The standby-activation behaviour of the frequency logic on an Active,
unboosted, standby-qualifying tick whose load is at or below the
threshold and whose requested frequency is within the hard ceiling:
the standby counter is incremented, Standby is entered exactly when the
incremented counter reaches standby_delay_factor, and on entry the
overclock credit is cleared and the delay switches to the standby
sampling rate (the delay switches on every such qualifying tick). -/
theorem freqPhase_standby_entry (c : Ctx) (delay0 max_load : Nat)
    (core : CoreState)
    (hq : c.pol.cur ≤ c.t._standby_threshold_freq)
    (hload : max_load ≤ c.t.up_threshold)
    (hnohard : core.requested_freq ≤
      hardLimitOf c false false true core.oc_boost_cycles) :
    (freqPhase c false false false true delay0 max_load core).core.standby_counter =
      core.standby_counter + 1 ∧
    ((freqPhase c false false false true delay0 max_load core).standby = true ↔
      c.t.standby_delay_factor ≤ core.standby_counter + 1) ∧
    (c.t.standby_delay_factor ≤ core.standby_counter + 1 →
      (freqPhase c false false false true delay0 max_load core).core.oc_boost_cycles = 0 ∧
      (freqPhase c false false false true delay0 max_load core).delay =
        c.t.standby_sampling_rate) := by
  have hgt : ¬(core.requested_freq >
      hardLimitOf c false false true core.oc_boost_cycles) := by omega
  have hl : ¬(max_load > c.t.up_threshold) := by omega
  have hdq : decide (c.pol.cur ≤ c.t._standby_threshold_freq) = true :=
    decide_eq_true hq
  simp only [freqPhase, standbyCheck, Bool.false_and, Bool.false_eq_true,
    if_false, if_neg hgt, hl, hdq, if_true, Bool.not_false,
    Bool.and_self, Bool.true_and, Bool.and_true, ite_true, ite_false]
  refine ⟨?_, ?_, ?_⟩
  · repeat' split
    all_goals simp [freqDecrease_standby_counter]
  · repeat' split
    all_goals simp
    all_goals omega
  · intro hfac
    repeat' split
    all_goals first
      | (constructor
         · simp [freqDecrease_oc]
         · simp)
      | (exfalso; omega)


theorem freqIncrease_cases (c : Ctx) (suspendF standbyF : Bool)
    (hard soft : Nat) (core : CoreState) :
    ((freqIncrease c suspendF standbyF hard soft core).2 = FreqAction.noop ∧
      (freqIncrease c suspendF standbyF hard soft core).1.requested_freq =
        core.requested_freq) ∨
    (∃ f, (freqIncrease c suspendF standbyF hard soft core).2 =
      FreqAction.increase f) := by
  simp only [freqIncrease]
  repeat' split
  all_goals simp


theorem freqDecrease_cases (c : Ctx) (active boosted : Bool) (max_load : Nat)
    (core : CoreState) :
    ((freqDecrease c active boosted max_load core).2 = FreqAction.noop ∧
      (freqDecrease c active boosted max_load core).1.requested_freq =
        core.requested_freq) ∨
    (∃ f, (freqDecrease c active boosted max_load core).2 =
      FreqAction.decrease f) := by
  simp only [freqDecrease]
  repeat' split
  all_goals simp


/-- Requested-frequency bound against the tick's enforced hard ceiling,
on every path except the frequency-increase and frequency-decrease
commands (which bound their result only by the policy limits). -/
theorem freqPhase_hard_bound (c : Ctx) (suspendF standbyF boosted active : Bool)
    (delay0 max_load : Nat) (core : CoreState) (C : Nat) :
    (freqPhase c suspendF standbyF boosted active delay0 max_load core).hard = some C →
    (∀ f, (freqPhase c suspendF standbyF boosted active delay0 max_load core).act ≠
      FreqAction.increase f) →
    (∀ f, (freqPhase c suspendF standbyF boosted active delay0 max_load core).act ≠
      FreqAction.decrease f) →
    (freqPhase c suspendF standbyF boosted active delay0 max_load core).core.requested_freq ≤ C := by
  have hsb := standbyCheck_fields c active boosted standbyF delay0
    { core with sampling_up_counter := 0 }
  simp only [freqPhase]
  split
  · intro hhard _ _
    simp at hhard
  · split
    case isTrue hgt =>
      intro hhard _ _
      simp only [Option.some.injEq] at hhard
      simp
      omega
    case isFalse hgt =>
      split <;>
      · split
        case isTrue hload =>
          intro hhard hinc _
          simp only [Option.some.injEq] at hhard
          simp only at hinc
          rcases freqIncrease_cases c suspendF standbyF
              (hardLimitOf c suspendF boosted active core.oc_boost_cycles)
              (softLimitOf c suspendF boosted active core.oc_boost_cycles)
              core with ⟨hact, hreq⟩ | ⟨f, hact⟩
          · simp only
            rw [hreq]
            omega
          · exact absurd hact (hinc f)
        case isFalse hload =>
          split
          case isTrue hmin =>
            intro hhard _ _
            simp only [Option.some.injEq] at hhard
            simp only
            rw [hsb.1]
            simp only
            omega
          case isFalse hmin =>
            intro hhard _ hdec
            simp only [Option.some.injEq] at hhard
            simp only at hdec
            rcases freqDecrease_cases c active boosted max_load
                (standbyCheck c active boosted standbyF delay0
                  { core with sampling_up_counter := 0 }).1
              with ⟨hact, hreq⟩ | ⟨f, hact⟩
            · simp only
              rw [hreq, hsb.1]
              simp only
              omega
            · exact absurd hact (hdec f)


/-
Claim C2.  The hard ceiling (lines 1426-1436) is enforced against the
requested frequency BEFORE the increase and decrease steps run.  The
increase step (1470-1474) then picks the next table entry above
policy->cur and clamps it only to policy->max, and the decrease step
(1528, 1534) moves to freq_lo clamped only at policy->min — either can
end the tick above the ceiling that the same tick computed.
-/

/-- Claim C2 counterexample: an Active tick with exhausted overclock
credit (hard ceiling 400000 = max_non_oc_freq), requested_freq 200000
within the ceiling, policy->cur at 400000 and load 100 takes the
frequency-increase path and finishes with requested_freq 600000 — above
the hard ceiling C = 400000 the same tick enforced, contradicting the
claim that no later step of the tick raises requested_freq above C. -/
theorem c2_counterexample :
    (dbs_check_cpu c2Ctx baseSys).hard = some 400000 ∧
    (dbs_check_cpu c2Ctx baseSys).act = FreqAction.increase 600000 ∧
    (dbs_check_cpu c2Ctx baseSys).sys.core.requested_freq = 600000 ∧
    400000 < 600000 := by
  refine ⟨by decide, by decide, by decide, by decide⟩


/-- Claim C2 (amended): when a tick enforces a hard ceiling C and does
not issue a frequency-increase or frequency-decrease command, its
requested_freq ends at or below C (the boost path, which precedes the
ceiling computation, reports no ceiling); the increase and decrease
commands guarantee only the policy bounds. -/
theorem c2_hard_ceiling_amended (c : Ctx) (s : Sys) (C : Nat)
    (hhard : (dbs_check_cpu c s).hard = some C)
    (hinc : ∀ f, (dbs_check_cpu c s).act ≠ FreqAction.increase f)
    (hdec : ∀ f, (dbs_check_cpu c s).act ≠ FreqAction.decrease f) :
    (dbs_check_cpu c s).sys.core.requested_freq ≤ C := by
  rw [dbs_check_cpu_core]
  exact freqPhase_hard_bound c s.suspend s.standby
    (is_boosted c.t c.now c.last_input_time) (!(s.suspend || s.standby))
    s.delay (tickLoadPhase c s).2.1
    { s.core with oc_boost_cycles := (tickLoadPhase c s).2.2 } C
    hhard hinc hdec


/-- Claim C2 witness: with requested_freq 800000 above the exhausted-credit
ceiling 400000, the tick fires the hard-limit enforcement and ends at or
below the ceiling. -/
theorem c2_witness :
    (dbs_check_cpu c2Ctx c2wSys).sys.core.requested_freq ≤ 400000 := by
  exact c2_hard_ceiling_amended c2Ctx c2wSys 400000 (by decide)
    (fun f hcon => by
      rw [show (dbs_check_cpu c2Ctx c2wSys).act = FreqAction.hardLimit 400000
        from by decide] at hcon
      simp at hcon)
    (fun f hcon => by
      rw [show (dbs_check_cpu c2Ctx c2wSys).act = FreqAction.hardLimit 400000
        from by decide] at hcon
      simp at hcon)


/-
Claim C1.  Requested-frequency bounds of one tick, under the
validated-tunables reading: verify_freq-validated frequency tunables
are table-target results, hence inside [policy->min, policy->max] at
validation time; the derived suspend hard limit is built from validated
frequencies and clamped to policy->max by recalculate_freq_limits;
freq_lo is a table-target result or policy->min (dbs_cpufreq_notifier);
requested_freq starts at policy->cur and the claim is the preservation
of its bounds by every tick.
-/

/-- Claim C1: on any tick — any load sequence, any mode, boosted or
not — with the validated frequency tunables inside the policy bounds and
requested_freq within bounds at tick entry, requested_freq is again
within [policy->min, policy->max] when the tick completes; in
particular the input-boost, frequency-increase and frequency-decrease
paths all leave it within bounds. -/
theorem c1_requested_freq_within_policy_bounds (c : Ctx) (s : Sys)
    (hpm : c.pol.min ≤ c.pol.max)
    (hr1 : c.pol.min ≤ s.core.requested_freq)
    (hr2 : s.core.requested_freq ≤ c.pol.max)
    (hibf : c.t.input_boost_freq = 0 ∨
      (c.pol.min ≤ c.t.input_boost_freq ∧ c.t.input_boost_freq ≤ c.pol.max))
    (hnoc : c.t.max_non_oc_freq = 0 ∨
      (c.pol.min ≤ c.t.max_non_oc_freq ∧ c.t.max_non_oc_freq ≤ c.pol.max))
    (hsus1 : c.pol.min ≤ c.t._suspend_max_freq_hard)
    (hlo : s.core.freq_lo ≤ c.pol.max)
    (htab : validEntries c.pol.min c.pol.max c.table ≠ []) :
    c.pol.min ≤ (dbs_check_cpu c s).sys.core.requested_freq ∧
    (dbs_check_cpu c s).sys.core.requested_freq ≤ c.pol.max := by
  rw [dbs_check_cpu_core]
  exact freqPhase_requested_bounds c s.suspend s.standby
    (is_boosted c.t c.now c.last_input_time) (!(s.suspend || s.standby))
    s.delay (tickLoadPhase c s).2.1
    { s.core with oc_boost_cycles := (tickLoadPhase c s).2.2 }
    hpm hr1 hr2 hibf hnoc hsus1 hlo htab


/-- Claim C1 witness: a concrete Active tick at load 100 with in-range
tunables takes the increase path and stays within
[policy->min, policy->max] = [100000, 1000000]. -/
theorem c1_witness :
    100000 ≤ (dbs_check_cpu c1Ctx baseSys).sys.core.requested_freq ∧
    (dbs_check_cpu c1Ctx baseSys).sys.core.requested_freq ≤ 1000000 := by
  exact c1_requested_freq_within_policy_bounds c1Ctx baseSys (by decide)
    (by decide) (by decide) (by decide) (by decide) (by decide) (by decide)
    (by decide)


/-
Claim C4.  Standby activation (lines 1483-1500).  The claim requires
consecutive qualifying ticks: a disqualifying tick should reset the
counter to 0.  In the code the standby counter is reset only inside the
frequency-increase path (line 1453, after the soft-ceiling early exit);
a disqualifying tick that takes no increase leaves the counter
unchanged, so the qualifying ticks need not be consecutive.
-/

/-- Claim C4 counterexample: a disqualifying tick (current frequency
400000 above the standby-entry threshold 150000, load 0) leaves the
standby counter at 1 instead of resetting it to 0 as the claim requires,
and no Standby transition occurs. -/
theorem c4_counterexample :
    c4Ctx.t._standby_threshold_freq < c4Ctx.pol.cur ∧
    c4Sys.core.standby_counter = 1 ∧
    (dbs_check_cpu c4Ctx c4Sys).sys.core.standby_counter = 1 ∧
    (dbs_check_cpu c4Ctx c4Sys).sys.standby = false := by
  refine ⟨by decide, by decide, by decide, by decide⟩


/-- Claim C4 (amended): on an Active, unboosted tick that is
standby-qualifying (current frequency at or below the standby-entry
threshold, aggregate load at or below the up threshold, requested
frequency within the hard ceiling so the hard-limit path does not
preempt the check), the standby counter increments by exactly one,
Standby is entered exactly when the incremented counter reaches
standby_delay_factor, and on the transition the overclock credit is
cleared and the sampling period becomes the standby rate.  The counter
is NOT reset by disqualifying ticks (see the counterexample); only the
frequency-increase path resets it. -/
theorem c4_standby_entry_amended (c : Ctx) (s : Sys)
    (hsus : s.suspend = false) (hstb : s.standby = false)
    (hboost : is_boosted c.t c.now c.last_input_time = false)
    (hq : c.pol.cur ≤ c.t._standby_threshold_freq)
    (hload : tickMaxLoad c s ≤ c.t.up_threshold)
    (hhard : ∀ f, (dbs_check_cpu c s).act ≠ FreqAction.hardLimit f) :
    (dbs_check_cpu c s).sys.core.standby_counter = s.core.standby_counter + 1 ∧
    ((dbs_check_cpu c s).sys.standby = true ↔
      c.t.standby_delay_factor ≤ s.core.standby_counter + 1) ∧
    (c.t.standby_delay_factor ≤ s.core.standby_counter + 1 →
      (dbs_check_cpu c s).sys.core.oc_boost_cycles = 0 ∧
      (dbs_check_cpu c s).sys.delay = c.t.standby_sampling_rate) := by
  have hAct : (!(s.suspend || s.standby)) = true := by rw [hsus, hstb]; rfl
  have hTick : tickFreqPhase c s =
      freqPhase c false false false true s.delay (tickLoadPhase c s).2.1
        { s.core with oc_boost_cycles := (tickLoadPhase c s).2.2 } := by
    unfold tickFreqPhase
    rw [hboost, hAct, hsus, hstb]
  by_cases hgt : ({ s.core with oc_boost_cycles := (tickLoadPhase c s).2.2 } :
      CoreState).requested_freq >
      hardLimitOf c false false true
        ({ s.core with oc_boost_cycles := (tickLoadPhase c s).2.2 } :
          CoreState).oc_boost_cycles
  · exfalso
    apply hhard (hardLimitOf c false false true
      ({ s.core with oc_boost_cycles := (tickLoadPhase c s).2.2 } :
        CoreState).oc_boost_cycles)
    rw [dbs_check_cpu_act, hTick]
    exact freqPhase_hard_fire c false false true s.delay
      (tickLoadPhase c s).2.1 _ hgt
  · have hent := freqPhase_standby_entry c s.delay (tickLoadPhase c s).2.1
      { s.core with oc_boost_cycles := (tickLoadPhase c s).2.2 }
      hq hload (by omega)
    rw [dbs_check_cpu_core, dbs_check_cpu_standby, dbs_check_cpu_delay, hTick]
    simpa using hent


/-- Claim C4 witness: a qualifying tick (cur 120000 at or below the
threshold 150000, load 0, not boosted, standby_delay_factor 1) with a
standby counter of 0 enters Standby, increments the counter to 1, clears
the overclock credit and switches the delay to the standby sampling
rate 2. -/
theorem c4_witness :
    (dbs_check_cpu c4wCtx c4wSys).sys.standby = true ∧
    (dbs_check_cpu c4wCtx c4wSys).sys.core.standby_counter = 1 ∧
    (dbs_check_cpu c4wCtx c4wSys).sys.core.oc_boost_cycles = 0 ∧
    (dbs_check_cpu c4wCtx c4wSys).sys.delay = 2 := by
  have h := c4_standby_entry_amended c4wCtx c4wSys rfl rfl (by decide)
    (by decide) (by decide)
    (fun f hcon => by
      rw [show (dbs_check_cpu c4wCtx c4wSys).act = FreqAction.noop from by decide]
        at hcon
      simp at hcon)
  refine ⟨h.2.1.mpr (by decide), h.1.trans (by decide),
    (h.2.2 (by decide)).1, ((h.2.2 (by decide)).2).trans (by decide)⟩


/-
Claim C3.  Lines 1365-1376 and the resets inside check_up/check_down.
The first half of the claim (up checked first, down only when up
returned false, never both in one tick) holds.  The second half — "after
either check returns true the history count equals 0" — fails: the
min_cpu_lock and boost bypasses of check_up (lines 1155-1161) and the
max_cpu_lock bypass of check_down (1212-1214) return 1 without touching
num_hist; only the history-window successes reset it (1181, 1239).
-/

/-- Claim C3 counterexample: with min_cpu_lock 4 and only 2 cores online,
the tick's check_up fires through the lock bypass (an online action is
queued) yet the pushed history count stays at 2, not 0 as the claim
requires after a check returns true. -/
theorem c3_counterexample :
    (dbs_check_cpu c3Ctx c3Sys).hot = HotplugAction.up ∧
    (dbs_check_cpu c3Ctx c3Sys).sys.num_hist = 2 ∧ (2 : Nat) ≠ 0 := by
  refine ⟨by decide, by decide, by decide⟩


/-- Claim C3 (amended): in every tick at most one hotplug action is
queued — the down work only when check_up returned false, the up work
only when it returned true — and a check that fires through its
history-window evaluation (rather than a cpu-lock or boost bypass)
leaves the history count at 0. -/
theorem c3_single_hotplug_action_amended :
    (∀ (c : Ctx) (s : Sys), (dbs_check_cpu c s).hot = HotplugAction.down →
      (check_up c.t (is_boosted c.t c.now c.last_input_time) c.online c.possible
        c.hf c.hr (tickHist c s) (tickNumHist s)).1 = false) ∧
    (∀ (c : Ctx) (s : Sys), (dbs_check_cpu c s).hot = HotplugAction.up →
      (check_up c.t (is_boosted c.t c.now c.last_input_time) c.online c.possible
        c.hf c.hr (tickHist c s) (tickNumHist s)).1 = true) ∧
    (∀ (t : Tuners) (boosted : Bool) (online possible : Nat)
        (hf hr hist : Nat → Nat × Nat) (numHist : Nat),
      ¬(t.min_cpu_lock ≠ 0 ∧ online < t.min_cpu_lock) →
      ¬(boosted = true ∧ t.boost_mincpus ≠ 0 ∧ online < t.boost_mincpus) →
      (check_up t boosted online possible hf hr hist numHist).1 = true →
      (check_up t boosted online possible hf hr hist numHist).2 = 0) ∧
    (∀ (t : Tuners) (boosted : Bool) (online : Nat)
        (hf hr hist : Nat → Nat × Nat) (numHist : Nat),
      ¬(t.max_cpu_lock ≠ 0 ∧ t.max_cpu_lock < online) →
      (check_down t boosted online hf hr hist numHist).1 = true →
      (check_down t boosted online hf hr hist numHist).2 = 0) := by
  refine ⟨?_, ?_, ?_, ?_⟩
  · intro c s h
    rw [dbs_check_cpu_hot] at h
    simp only [tickHot] at h
    revert h
    split
    case isTrue hcu => intro h; exact absurd h (by simp)
    case isFalse hcu => intro _; simpa using hcu
  · intro c s h
    rw [dbs_check_cpu_hot] at h
    simp only [tickHot] at h
    revert h
    split
    case isTrue hcu => intro _; exact hcu
    case isFalse hcu =>
      intro h
      exfalso
      revert h
      split
      · split <;> simp
      · simp
  · intro t boosted online possible hf hr hist numHist h3 h4
    simp only [check_up]
    split
    · simp
    · split
      · simp
      · split
        case isTrue hc =>
          simp only [Bool.and_eq_true, decide_eq_true_eq] at hc
          exact absurd hc h3
        case isFalse hc =>
          split
          case isTrue hc2 =>
            simp only [Bool.and_eq_true, decide_eq_true_eq] at hc2
            exact absurd ⟨hc2.1.1, hc2.1.2, hc2.2⟩ h4
          case isFalse hc2 =>
            split
            · simp
            · split <;> simp
  · intro t boosted online hf hr hist numHist h2
    simp only [check_down]
    split
    · simp
    · split
      · simp
      · split
        case isTrue hc =>
          simp only [Bool.and_eq_true, decide_eq_true_eq] at hc
          exact absurd ⟨hc.1, hc.2⟩ h2
        case isFalse hc =>
          split
          · simp
          · split
            · simp
            · split <;> simp


/-- Claim C3 witness: the amended window-reset facts at concrete inputs —
a check_up window success with cpu_up_rate 2 at count 2 resets the count
to 0, and a check_down window success with cpu_down_rate 2 at count 2
resets it to 0. -/
theorem c3_witness :
    (check_up { baseTuners with cpu_up_rate := 2 } false 3 4
      (fun _ => (200000, 500000)) (fun _ => (100, 200))
      (fun _ => (600000, 300)) 2).2 = 0 ∧
    (check_down { baseTuners with cpu_down_rate := 2 } false 2
      (fun _ => (200000, 500000)) (fun _ => (100, 200))
      (fun _ => (100000, 50)) 2).2 = 0 := by
  constructor
  · exact c3_single_hotplug_action_amended.2.2.1
      { baseTuners with cpu_up_rate := 2 } false 3 4
      (fun _ => (200000, 500000)) (fun _ => (100, 200))
      (fun _ => (600000, 300)) 2 (by decide) (by decide) (by decide)
  · exact c3_single_hotplug_action_amended.2.2.2
      { baseTuners with cpu_down_rate := 2 } false 2
      (fun _ => (200000, 500000)) (fun _ => (100, 200))
      (fun _ => (100000, 50)) 2 (by decide) (by decide)


/-
Claim C5.  check_up (lines 1132-1185): with none of the short-circuit
rules applying, the decision is the history-window rule, and a success
resets num_hist to 0 while a failure leaves it unchanged.
-/

/-- Claim C5: when no earlier short-circuit rule of check_up applies
(cores not all online, no max_cpu_lock / min_cpu_lock / boost bypass),
check_up succeeds — returning true and resetting the history count to
0 — exactly when the count is a nonzero multiple of cpu_up_rate and over
the last cpu_up_rate samples every frequency is at least
up_freq[online] and every run-queue average is strictly above
up_rq[online] (the spec's min-based formulation); in every other case it
returns false and leaves the count unchanged.  The bound hypothesis
reflects the C loop's int accumulators starting at INT_MAX. -/
theorem c5_check_up_window_rule (t : Tuners) (boosted : Bool)
    (online possible : Nat) (hf hr hist : Nat → Nat × Nat) (numHist : Nat)
    (h1 : online ≠ possible)
    (h2 : ¬(t.max_cpu_lock ≠ 0 ∧ t.max_cpu_lock ≤ online))
    (h3 : ¬(t.min_cpu_lock ≠ 0 ∧ online < t.min_cpu_lock))
    (h4 : ¬(boosted = true ∧ t.boost_mincpus ≠ 0 ∧ online < t.boost_mincpus))
    (hrate : 0 < t.cpu_up_rate)
    (hbound : ∀ u ∈ histWindow hist numHist t.cpu_up_rate,
      u.1 ≤ INT_MAX ∧ u.2 ≤ INT_MAX) :
    (check_up t boosted online possible hf hr hist numHist = (true, 0) ↔
      (numHist ≠ 0 ∧ numHist % t.cpu_up_rate = 0 ∧
        spec_up_window_pass (hf (online - 1)).2 (hr (online - 1)).2
          (histWindow hist numHist t.cpu_up_rate) = true)) ∧
    ((check_up t boosted online possible hf hr hist numHist).1 = false →
      (check_up t boosted online possible hf hr hist numHist).2 = numHist) := by
  have e1 : (online == possible) = false := by simp [h1]
  have e2 : (decide (t.max_cpu_lock ≠ 0) && decide (online ≥ t.max_cpu_lock)) = false := by
    simp only [Bool.and_eq_false_iff, decide_eq_false_iff_not]
    by_cases hz : t.max_cpu_lock = 0
    · left; simp [hz]
    · right; intro hc; exact h2 ⟨hz, hc⟩
  have e3 : (decide (t.min_cpu_lock ≠ 0) && decide (online < t.min_cpu_lock)) = false := by
    simp only [Bool.and_eq_false_iff, decide_eq_false_iff_not]
    by_cases hz : t.min_cpu_lock = 0
    · left; simp [hz]
    · right; intro hc; exact h3 ⟨hz, hc⟩
  have e4 : (boosted && decide (t.boost_mincpus ≠ 0) && decide (online < t.boost_mincpus)) = false := by
    cases hb : boosted with
    | false => simp
    | true =>
      simp only [Bool.true_and, Bool.and_eq_false_iff, decide_eq_false_iff_not]
      by_cases hz : t.boost_mincpus = 0
      · left; simp [hz]
      · right; intro hc; exact h4 ⟨hb, hz, hc⟩
  simp only [check_up, e1, e2, e3, e4, Bool.false_eq_true, if_false]
  by_cases hg : numHist % t.cpu_up_rate = 0 ∧ numHist ≠ 0
  case neg =>
    have egate : (numHist == 0 || numHist % t.cpu_up_rate != 0) = true := by
      simp only [Bool.or_eq_true, beq_iff_eq, bne_iff_ne, ne_eq]
      omega
    simp only [egate, if_true]
    refine ⟨⟨fun hcon => ?_, fun hrhs => ?_⟩, fun _ => by trivial⟩
    · simp at hcon
    · exact absurd ⟨hrhs.2.1, hrhs.1⟩ hg
  case pos =>
    have egate : (numHist == 0 || numHist % t.cpu_up_rate != 0) = false := by
      simp only [Bool.or_eq_false_iff, beq_eq_false_iff_ne, ne_eq,
        bne_eq_false_iff_eq]
      omega
    simp only [egate, Bool.false_eq_true, if_false]
    obtain ⟨u0, hu0⟩ : ∃ u, u ∈ histWindow hist numHist t.cpu_up_rate :=
      List.exists_mem_of_ne_nil _ (histWindow_ne_nil hist numHist _ hrate)
    have efold1 : (histWindow hist numHist t.cpu_up_rate).foldl
        (fun m u => if m ≤ u.1 then m else u.1) INT_MAX =
        ((histWindow hist numHist t.cpu_up_rate).map Prod.fst).foldl
          (fun m v => if m ≤ v then m else v) INT_MAX :=
      (List.foldl_map Prod.fst (fun m v => if m ≤ v then m else v) _ _).symm
    have efold2 : (histWindow hist numHist t.cpu_up_rate).foldl
        (fun m u => if m ≤ u.2 then m else u.2) INT_MAX =
        ((histWindow hist numHist t.cpu_up_rate).map Prod.snd).foldl
          (fun m v => if m ≤ v then m else v) INT_MAX :=
      (List.foldl_map Prod.snd (fun m v => if m ≤ v then m else v) _ _).symm
    have hfreq : (hf (online - 1)).2 ≤ (histWindow hist numHist t.cpu_up_rate).foldl
        (fun m u => if m ≤ u.1 then m else u.1) INT_MAX ↔
        ∀ u ∈ histWindow hist numHist t.cpu_up_rate, (hf (online - 1)).2 ≤ u.1 := by
      rw [efold1, foldl_ite_min_ge]
      constructor
      · rintro ⟨_, hall⟩ u hu
        exact hall u.1 (List.mem_map_of_mem _ hu)
      · intro hall
        refine ⟨le_trans (hall u0 hu0) (hbound u0 hu0).1, ?_⟩
        intro v hv
        rcases List.mem_map.mp hv with ⟨u, hu, rfl⟩
        exact hall u hu
    have hrq : (hr (online - 1)).2 < (histWindow hist numHist t.cpu_up_rate).foldl
        (fun m u => if m ≤ u.2 then m else u.2) INT_MAX ↔
        ∀ u ∈ histWindow hist numHist t.cpu_up_rate, (hr (online - 1)).2 < u.2 := by
      rw [efold2, foldl_ite_min_gt]
      constructor
      · rintro ⟨_, hall⟩ u hu
        exact hall u.2 (List.mem_map_of_mem _ hu)
      · intro hall
        refine ⟨lt_of_lt_of_le (hall u0 hu0) (hbound u0 hu0).2, ?_⟩
        intro v hv
        rcases List.mem_map.mp hv with ⟨u, hu, rfl⟩
        exact hall u hu
    refine ⟨⟨fun hres => ?_, fun hrhs => ?_⟩, fun hfalse => ?_⟩
    · split at hres
      case isTrue hcnd =>
        simp only [Bool.and_eq_true, decide_eq_true_eq, ge_iff_le, gt_iff_lt] at hcnd
        refine ⟨hg.2, hg.1, ?_⟩
        simp only [spec_up_window_pass, Bool.and_eq_true, List.all_eq_true,
          decide_eq_true_eq]
        exact ⟨hfreq.mp hcnd.1, hrq.mp hcnd.2⟩
      case isFalse hcnd =>
        simp at hres
    · simp only [spec_up_window_pass, Bool.and_eq_true, List.all_eq_true,
        decide_eq_true_eq] at hrhs
      have hcnd : (decide ((histWindow hist numHist t.cpu_up_rate).foldl
          (fun m u => if m ≤ u.1 then m else u.1) INT_MAX ≥ (hf (online - 1)).2) &&
          decide ((histWindow hist numHist t.cpu_up_rate).foldl
            (fun m u => if m ≤ u.2 then m else u.2) INT_MAX > (hr (online - 1)).2)) = true := by
        simp only [Bool.and_eq_true, decide_eq_true_eq, ge_iff_le, gt_iff_lt]
        exact ⟨hfreq.mpr hrhs.2.2.1, hrq.mpr hrhs.2.2.2⟩
      rw [hcnd]
      simp
    · revert hfalse
      split
      case isTrue hcnd => intro hfalse; simp at hfalse
      case isFalse hcnd => intro _; rfl


/-- Claim C5 witness: cpu_up_rate 2, num_hist 2 (a nonzero multiple),
every window sample at frequency 600000 ≥ up_freq 500000 with rq_avg 300
above up_rq 200: check_up fires and resets the count to 0. -/
theorem c5_witness :
    check_up { baseTuners with cpu_up_rate := 2 } false 2 4
      (fun _ => (200000, 500000)) (fun _ => (100, 200))
      (fun _ => (600000, 300)) 2 = (true, 0) := by
  have h := (c5_check_up_window_rule { baseTuners with cpu_up_rate := 2 } false 2 4
    (fun _ => (200000, 500000)) (fun _ => (100, 200)) (fun _ => (600000, 300)) 2
    (by decide) (by decide) (by decide) (by simp) (by decide) (by decide)).1
  exact h.mpr (by decide)


/-
Claim C6.  Overclock credit debit: oc_freq_delta at 1277-1280, the
per-cpu debit at 1355-1362.  The claim's formula
(current − max_non_oc_freq)/1000 × busy reads the busy time in ms; the
code debits oc_freq_delta × busy_us / 1000, the same quantity, and its
spec scenario (1000 us at max_non_oc_freq + 100000 kHz debits 100)
computes exactly this.
-/

/-- Claim C6: on an Active tick with the current frequency above
max_non_oc_freq (and outside the standby-qualifying region, which would
also clear the credit), the overclock credit after the tick is the prior
credit debited by (cur − max_non_oc_freq)/1000 × busy_time/1000 for the
core's (single) valid sample, saturating at zero: the counter never goes
negative, and once the debit covers the credit the result is exactly 0.
When the credit was already 0 the debit is suppressed (oc_freq_delta
stays 0) and both sides are 0. -/
theorem c6_oc_credit_debit (c : Ctx) (s : Sys) (prev cur : CpuTimes)
    (hsus : s.suspend = false) (hstb : s.standby = false)
    (hprev : s.prevs = [prev]) (hsam : c.samples = [cur])
    (hover : c.t.max_non_oc_freq < c.pol.cur)
    (hnq : c.t._standby_threshold_freq < c.pol.cur)
    (hw : stepWallTime prev cur ≠ 0)
    (hi : stepIdleTime c.t true false false
      (is_boosted c.t c.now c.last_input_time) c.jtu prev cur ≤
      stepWallTime prev cur) :
    (dbs_check_cpu c s).sys.core.oc_boost_cycles =
      s.core.oc_boost_cycles -
        u32 ((c.pol.cur - c.t.max_non_oc_freq) / 1000 *
          (stepWallTime prev cur - stepIdleTime c.t true false false
            (is_boosted c.t c.now c.last_input_time) c.jtu prev cur)) / 1000 ∧
    (s.core.oc_boost_cycles ≤
        u32 ((c.pol.cur - c.t.max_non_oc_freq) / 1000 *
          (stepWallTime prev cur - stepIdleTime c.t true false false
            (is_boosted c.t c.now c.last_input_time) c.jtu prev cur)) / 1000 →
      (dbs_check_cpu c s).sys.core.oc_boost_cycles = 0) := by
  have hcore : (dbs_check_cpu c s).sys.core.oc_boost_cycles =
      (tickLoadPhase c s).2.2 := by
    rw [dbs_check_cpu_core]
    unfold tickFreqPhase
    rw [freqPhase_oc_preserved _ _ _ _ _ _ _ _ hnq]
  have hlp : (tickLoadPhase c s).2.2 =
      s.core.oc_boost_cycles -
        (if (ocFreqDelta c.t true c.pol.cur s.core.oc_boost_cycles) ≠ 0 then
          u32 ((ocFreqDelta c.t true c.pol.cur s.core.oc_boost_cycles) *
            (stepWallTime prev cur - stepIdleTime c.t true false false
              (is_boosted c.t c.now c.last_input_time) c.jtu prev cur)) / 1000
        else 0) := by
    simp only [tickLoadPhase, hsus, hstb, hprev, hsam, Bool.or_self,
      Bool.not_false]
    exact (loadPhase_single c.t true false false
      (is_boosted c.t c.now c.last_input_time) c.jtu
      (ocFreqDelta c.t true c.pol.cur s.core.oc_boost_cycles) prev cur
      s.core.oc_boost_cycles hw hi).2
  have key : (dbs_check_cpu c s).sys.core.oc_boost_cycles =
      s.core.oc_boost_cycles -
        u32 ((c.pol.cur - c.t.max_non_oc_freq) / 1000 *
          (stepWallTime prev cur - stepIdleTime c.t true false false
            (is_boosted c.t c.now c.last_input_time) c.jtu prev cur)) / 1000 := by
    rw [hcore, hlp]
    by_cases hoc : s.core.oc_boost_cycles = 0
    · simp [ocFreqDelta, hoc]
    · have hD : ocFreqDelta c.t true c.pol.cur s.core.oc_boost_cycles =
          (c.pol.cur - c.t.max_non_oc_freq) / 1000 := by
        simp [ocFreqDelta, hoc, hover]
      rw [hD]
      by_cases hz : (c.pol.cur - c.t.max_non_oc_freq) / 1000 = 0
      · simp [hz, u32, U32]
      · simp [hz]
  exact ⟨key, fun hle => by rw [key]; omega⟩


/-- Claim C6 witness: the spec scenario — a core with credit 500 running
1000 us busy at 1000000 kHz with max_non_oc_freq 900000 (excess 100000
kHz) is debited 100*1000/1000 = 100, leaving 400. -/
theorem c6_witness :
    (dbs_check_cpu c6Ctx c6Sys).sys.core.oc_boost_cycles = 400 := by
  have h := (c6_oc_credit_debit c6Ctx c6Sys ⟨0, 0, 0, 0⟩ ⟨0, 1000, 0, 0⟩
    rfl rfl rfl rfl (by decide) (by decide) (by decide) (by decide)).1
  exact h.trans (by decide)

end CpufreqDynamic
